import Mathlib

/-!
# Flappy-Pro: the game loop and session state machine of `src/game.js`

A shallow embedding of the simulation core of `game.js`.

* JavaScript numbers are modelled by exact rationals (`ℚ`) for positions,
  velocities and sizes, and by integers for the counters `score`, `best`,
  `lives` and `frame`. Where a property turns on the rounding of doubles
  (the upper end of the spawn band), the rounded value is modelled next to
  the exact one by `roundDouble`.
* The module-level `let` variables (`W`, `H`, `state`, `frame`, `score`, ...)
  become the fields of one record, `Game`; every function of the source that
  reads or writes them becomes a function `Game → Game`.
* `Math.random()` and `Math.sin(Date.now() / 600)` are inputs of a tick
  (`rnd`, `osc`).
* The two `setTimeout` callbacks that touch simulation state (the hit
  cooldown expiry and `showDead`) are events of the transition system.
* Drawing, audio, DOM updates, particles and the trail do not feed back into
  the simulation and are left out.
-/

namespace FlappyPro

/-! ## Constants (`game.js` lines 13-19) -/

/-- Source: `const GRAVITY = 0.38`. -/
def GRAVITY : ℚ := 38 / 100

/-- Source: `const JUMP = -8.0`. -/
def JUMP : ℚ := -8

/-- Source: `const WIN_SCORE = 10`. -/
def WIN_SCORE : Int := 10

/-- Source: `const PIPE_W = 64`. -/
def PIPE_W : ℚ := 64

/-- Source: `const PIPE_INT = 90`. -/
def PIPE_INT : Nat := 90

/-- Source: `const BASE_SPD = 3.2`. -/
def BASE_SPD : ℚ := 32 / 10

/-- Source: `BIRD_COLORS.length`. -/
def BIRD_COLORS_length : Int := 5

/-! ## State -/

/-- The values taken by the global `state`: `'start'`, `'playing'`,
`'gameover_anim'`, `'dead'`, `'win'`. -/
inductive Mode where
  | start
  | playing
  | gameover_anim
  | dead
  | win
  deriving DecidableEq, Repr

/-- The object `bird` built by `init`; `color` is the index into
`BIRD_COLORS`. -/
structure Bird where
  x : ℚ
  y : ℚ
  w : ℚ
  h : ℚ
  vy : ℚ
  angle : ℚ
  color : Int
  deriving DecidableEq, Repr

/-- An element of `pipes`: `{ x, topH, passed }`. -/
structure Pipe where
  x : ℚ
  topH : ℚ
  passed : Bool
  deriving DecidableEq, Repr

/-- The module-level variables of `game.js` that make up the simulation. -/
structure Game where
  W : ℚ
  H : ℚ
  pipeGap : ℚ
  state : Mode
  frame : Nat
  score : Int
  best : Int
  lives : Int
  pipes : List Pipe
  speedMult : ℚ
  bird : Bird
  bgScroll : ℚ
  groundScroll : ℚ
  godMode : Bool
  hitCooldown : Bool
  deriving DecidableEq, Repr

/-! ## `resize`, `init` -/

/-- Function `resize()`: `W`, `H` take the size of the wrapper (the inputs `w`, `h`),
`pipeGap = (H < 550) ? 160 : 200`. -/
def resize (g : Game) (w h : ℚ) : Game :=
  { g with W := w, H := h, pipeGap := if h < 550 then 160 else 200 }

/-- Function `init(fromState = 'start')`. -/
def init (g : Game) (fromState : String) : Game :=
  { g with
    frame := 0, score := 0, lives := 3, pipes := [],
    bgScroll := 0, groundScroll := 0,
    speedMult := 1,
    bird :=
      { x := g.W * (2 / 10), y := g.H * (45 / 100), w := 44, h := 32,
        vy := 0, angle := 0, color := 0 },
    state := if fromState = "start" then Mode.start else Mode.playing }

/-! ## Collision -/

/-- Function `checkCollision(pipe)`, reading the globals `bird` and `pipeGap`. -/
def checkCollision (bird : Bird) (pipeGap : ℚ) (pipe : Pipe) : Bool :=
  let bx := bird.x
  let by_ := bird.y
  let bw := bird.w - 8
  let bh := bird.h - 6
  let px := pipe.x
  let pw := PIPE_W
  if bx + bw < px ∨ bx > px + pw then false
  else
    let topH := pipe.topH
    let botY := topH + pipeGap
    decide (by_ < topH ∨ by_ + bh > botY)

/-! ## `showDead`, `handleHit` -/

/-- Function `showDead()`: apart from the DOM, `setState('dead')`. -/
def showDead (g : Game) : Game :=
  { g with state := Mode.dead }

/-- Function `handleHit()`. The two `setTimeout` calls schedule the events
`cooldownExpire` and `deathTimer` of the transition system below. -/
def handleHit (g : Game) : Game :=
  if g.godMode then g
  else if g.hitCooldown then g
  else
    let g1 := { g with hitCooldown := true, lives := g.lives - 1 }
    if g1.lives ≤ 0 then
      { g1 with state := Mode.gameover_anim, bird := { g1.bird with vy := -5 } }
    else
      { g1 with
        bird := { g1.bird with y := g1.H * (4 / 10), vy := 0 },
        pipes := [],
        frame := 0 }

/-- Whether a call of `handleHit` runs `pipes = []`, that is, rebinds the
global `pipes` to a fresh array: the call is not ignored and lives remain. -/
def handleHitRebinds (g : Game) : Bool :=
  !g.godMode && !g.hitCooldown && !decide (g.lives - 1 ≤ 0)

/-! ## Input -/

/-- Function `flap()`. -/
def flap (g : Game) : Game :=
  { g with bird := { g.bird with vy := JUMP } }

/-- Function `onInput(e)`; `onUi` says whether the event targets a button or the
settings panel (the early `return` of the source). -/
def onInput (g : Game) (onUi : Bool) : Game :=
  if onUi then g
  else
    match g.state with
    | Mode.start =>
      flap { g with
        state := Mode.playing,
        bird := { g.bird with y := g.H * (45 / 100), vy := 0 },
        frame := 0 }
    | Mode.playing => flap g
    | _ => g

/-! ## The main loop -/

/-- Lines 527-532 of `loop`: scroll offsets, then
`bird.vy += GRAVITY; bird.y += bird.vy;` and the tilt angle. -/
def integrate (g : Game) (spd : ℚ) : Game :=
  let vy := g.bird.vy + GRAVITY
  let y := g.bird.y + vy
  { g with
    bgScroll := g.bgScroll + spd * (4 / 10),
    groundScroll := g.groundScroll - spd * (15 / 10),
    bird := { g.bird with vy := vy, y := y, angle := max (-(5 / 10)) (min (12 / 10) (vy * (8 / 100))) } }

/-- Lines 534-537: ground contact clamps the bird and calls `handleHit`. -/
def groundCheck (g : Game) : Game :=
  if g.bird.y + g.bird.h ≥ g.H - 60 then
    handleHit { g with bird := { g.bird with y := g.H - 60 - g.bird.h } }
  else g

/-- Line 538: the soft ceiling. -/
def ceilingCheck (g : Game) : Game :=
  if g.bird.y ≤ 0 then { g with bird := { g.bird with y := 0, vy := 0 } } else g

/-- Source: `margin = (H < 550) ? 50 : 80`. -/
def spawnMargin (h : ℚ) : ℚ := if h < 550 then 50 else 80

/-- Source: `maxT = Math.max(margin + 20, H - margin - pipeGap - margin)`. -/
def spawnMaxT (h pipeGap : ℚ) : ℚ :=
  max (spawnMargin h + 20) (h - spawnMargin h - pipeGap - spawnMargin h)

/-- Lines 540-544: on the spawn cadence a new pipe is pushed; `rnd` is the
value of `Math.random()`. The field `topH` is the exact value of the
expression; its value as a double is `spawnTopHDouble`. -/
def spawn (g : Game) (rnd : ℚ) : Game :=
  if g.frame % PIPE_INT = 0 then
    let margin := spawnMargin g.H
    let maxT := spawnMaxT g.H g.pipeGap
    { g with pipes := g.pipes ++ [{ x := g.W, topH := margin + rnd * (maxT - margin), passed := false }] }
  else g

/-- The callback of `pipes.forEach` (lines 546-572) on one pipe: the pipe is
moved, collision-checked and pass-scored. Returns the globals, the mutated
pipe object, and whether `handleHit` rebound the global `pipes` during the
call. The `return` after `setState('win')` ends this callback only. -/
def pipeBody (spd : ℚ) (g : Game) (p : Pipe) : Game × Pipe × Bool :=
  let p1 := { p with x := p.x - spd }
  let hit := checkCollision g.bird g.pipeGap p1
  let g1 := if hit then handleHit g else g
  let rebound := hit && handleHitRebinds g
  if !p1.passed && decide (p1.x + PIPE_W < g1.bird.x) then
    let p2 := { p1 with passed := true }
    let g2 := { g1 with score := g1.score + 1 }
    let g3 := { g2 with best := max g2.best g2.score }
    let g4 := { g3 with bird := { g3.bird with color := g3.score % BIRD_COLORS_length } }
    if g4.score ≥ WIN_SCORE then
      ({ g4 with state := Mode.win }, p2, rebound)
    else (g4, p2, rebound)
  else (g1, p1, rebound)

/-- The call `pipes.forEach(...)` over the array `arr` that `pipes` referred to when
the call started. `forEach` visits every element of that array even when the
callback rebinds the variable `pipes`. Returns the globals, the visited
(mutated) elements, and whether `pipes` was rebound on the way. -/
def forEachPipe (spd : ℚ) : Game → List Pipe → Game × List Pipe × Bool
  | g, [] => (g, [], false)
  | g, p :: rest =>
    let r1 := pipeBody spd g p
    let r2 := forEachPipe spd r1.1 rest
    (r2.1, r1.2.1 :: r2.2.1, r1.2.2 || r2.2.2)

/-- The playing branch of `loop` up to the call of `pipes.forEach`:
integration, ground contact, ceiling, spawn. -/
def loopBeforeForEach (g : Game) (rnd : ℚ) : Game :=
  spawn (ceilingCheck (groundCheck (integrate g (BASE_SPD * g.speedMult)))) rnd

/-- The playing branch of `loop` up to and including `pipes.forEach`: the
global `pipes` afterwards is the iterated array with its elements mutated in
place, unless `handleHit` rebound it to `[]`. -/
def loopBeforeRetire (g : Game) (rnd : ℚ) : Game :=
  let g1 := loopBeforeForEach g rnd
  let r := forEachPipe (BASE_SPD * g.speedMult) g1 g1.pipes
  { r.1 with pipes := if r.2.2 then r.1.pipes else r.2.1 }

/-- The predicate of `pipes.filter(p => p.x + PIPE_W > -10)`. -/
def keepPipe (p : Pipe) : Bool := decide (p.x + PIPE_W > -10)

/-- Lines 574-575: `pipes = pipes.filter(...)`, `frame++`. -/
def retire (g : Game) : Game :=
  { g with pipes := g.pipes.filter keepPipe, frame := g.frame + 1 }

/-- One call of `loop()`: `rnd` is the value `Math.random()` would return in
the spawn, `osc` is `Math.sin(Date.now() / 600)`. -/
def loop (g : Game) (rnd osc : ℚ) : Game :=
  match g.state with
  | Mode.playing => retire (loopBeforeRetire g rnd)
  | Mode.start =>
    { g with
      bgScroll := g.bgScroll + 8 / 10,
      bird := { g.bird with y := g.H * (45 / 100) + osc * 12, angle := osc * (15 / 100) } }
  | _ => g

/-! ## Boot and the transition system -/

/-- Function `bootGame()`: `best` is read from storage, then `resize(); init('start')`. -/
def bootGame (g : Game) (bestScore : Int) (w h : ℚ) : Game :=
  init (resize { g with best := bestScore } w h) "start"

/-- The module state before the first `bootGame()`: `godMode = false`,
`hitCooldown = false`, `pipeGap = 200`; everything else is assigned by
`bootGame` before it is read. -/
def loaded : Game :=
  { W := 0, H := 0, pipeGap := 200, state := Mode.start, frame := 0, score := 0,
    best := 0, lives := 0, pipes := [], speedMult := 0,
    bird := { x := 0, y := 0, w := 0, h := 0, vy := 0, angle := 0, color := 0 },
    bgScroll := 0, groundScroll := 0, godMode := false, hitCooldown := false }

/-- What can happen to the simulation between two moments. -/
inductive Event where
  /-- one animation frame: `loop()` -/
  | tick (rnd osc : ℚ)
  /-- mouse, touch or space bar: `onInput(e)` -/
  | input (onUi : Bool)
  /-- retry / menu buttons: `init('play')`, `init('start')` -/
  | reset (fromState : String)
  /-- the timer `setTimeout(() => hitCooldown = false, 500)` fires -/
  | cooldownExpire
  /-- the timer `setTimeout(() => showDead(), 800)` fires -/
  | deathTimer
  /-- window resize: `resize()` -/
  | resized (w h : ℚ)
  /-- the cheat code toggles `godMode` -/
  | toggleGod
  /-- the route guard calls `bootGame()` again -/
  | reboot (bestScore : Int) (w h : ℚ)

/-- The effect of one event. The timer events may fire at any moment: the
schedules of the source (500 ms and 800 ms after a hit) are among them. -/
def step (g : Game) : Event → Game
  | Event.tick rnd osc => loop g rnd osc
  | Event.input onUi => onInput g onUi
  | Event.reset fromState => init g fromState
  | Event.cooldownExpire => { g with hitCooldown := false }
  | Event.deathTimer => showDead g
  | Event.resized w h => resize g w h
  | Event.toggleGod => { g with godMode := !g.godMode }
  | Event.reboot bestScore w h => bootGame g bestScore w h

/-- A sequence of events, oldest first. -/
def run (g : Game) (es : List Event) : Game :=
  es.foldl step g

/-- States the program can be in after the first boot. -/
def Reachable (g : Game) : Prop :=
  ∃ (bestScore : Int) (w h : ℚ) (es : List Event), g = run (bootGame loaded bestScore w h) es

/-- An event that is no explicit reset (`init` or `bootGame`). -/
def Event.isReset : Event → Bool
  | Event.reset _ => true
  | Event.reboot _ _ _ => true
  | _ => false

/-- A sequence of animation frames with no other event between them; each
entry is the pair `(rnd, osc)` of that frame. -/
def ticks (g : Game) (inputs : List (ℚ × ℚ)) : Game :=
  inputs.foldl (fun s i => loop s i.1 i.2) g

/-- The number of pipes of a list whose `passed` flag is not set. -/
def unscored (ps : List Pipe) : Nat :=
  ps.countP (fun p => !p.passed)

/-- Reference description of the pass test of the `forEach` callback on a
pipe as it stands before the tick: not yet flagged, and after moving left by
`spd` its trailing edge `x + PIPE_W` is strictly left of the bird's `x`. -/
def passesNow (spd birdX : ℚ) (p : Pipe) : Bool :=
  !p.passed && decide (p.x - spd + PIPE_W < birdX)

/-- Reference description of what the `forEach` callback does to one pipe
object: it moves left by `spd` and its flag is set when it passes. -/
def advancePipe (spd birdX : ℚ) (p : Pipe) : Pipe :=
  { x := p.x - spd, topH := p.topH, passed := p.passed || passesNow spd birdX p }

/-- A state in the middle of play used to instantiate the theorems: three
lives, score 4, one pipe just about to pass the bird and one further right. -/
def midPlay : Game :=
  { W := 1000, H := 600, pipeGap := 200, state := Mode.playing, frame := 37, score := 4,
    best := 6, lives := 3,
    pipes := [{ x := 136, topH := 200, passed := false }, { x := 424, topH := 150, passed := false }],
    speedMult := 1,
    bird := { x := 200, y := 300, w := 44, h := 32, vy := 2, angle := 0, color := 4 },
    bgScroll := 0, groundScroll := 0, godMode := false, hitCooldown := false }

/-- The lives invariant of the session: between 0 and 3, and a session with
no life left is neither playing nor idle. -/
def LivesOk (g : Game) : Prop :=
  0 ≤ g.lives ∧ g.lives ≤ 3 ∧ (g.lives = 0 → g.state ≠ Mode.playing ∧ g.state ≠ Mode.start)

/-- The lives invariant inside a tick: when the last life has gone on this
tick the hit cooldown is still set. -/
def TickInv (g : Game) : Prop :=
  LivesOk g ∧ (g.lives = 0 → g.hitCooldown = true)

/-- Relation between the state at the start of a tick and a state inside it:
no life lost yet, or exactly one and the cooldown set. -/
def AtMostOneHit (g0 g : Game) : Prop :=
  g.lives = g0.lives ∨ (g.lives = g0.lives - 1 ∧ g.hitCooldown = true)

/-- The block guarded by `if (!p.passed && p.x + PIPE_W < bird.x)` in the
`forEach` callback, as it acts on the globals: `score++`,
`best = Math.max(best, score)`, the colour, and `setState('win')` at the
threshold. -/
def scorePass (g : Game) : Game :=
  let g4 := { g with score := g.score + 1, best := max g.best (g.score + 1),
                     bird := { g.bird with color := (g.score + 1) % BIRD_COLORS_length } }
  if g.score + 1 ≥ WIN_SCORE then { g4 with state := Mode.win } else g4

/-- The ground test of `loop` on the state at the start of a tick: after
`bird.vy += GRAVITY; bird.y += bird.vy` the bird's bottom edge reaches the
ground line `H - 60`. -/
def groundContact (g : Game) : Prop :=
  g.bird.y + (g.bird.vy + GRAVITY) + g.bird.h ≥ g.H - 60

/-- The ceiling test of `loop` on the state at the start of a tick. -/
def ceilingContact (g : Game) : Prop :=
  g.bird.y + (g.bird.vy + GRAVITY) ≤ 0

/-- A playing state with no pipe on screen, the bird in mid air moving down;
no spawn is due on the next tick. -/
def quietFall : Game :=
  { W := 1000, H := 600, pipeGap := 200, state := Mode.playing, frame := 37, score := 4,
    best := 6, lives := 3, pipes := [], speedMult := 1,
    bird := { x := 200, y := 300, w := 44, h := 32, vy := 2, angle := 0, color := 4 },
    bgScroll := 0, groundScroll := 0, godMode := false, hitCooldown := false }

/-- A fresh session in playing mode on a very low viewport (height 100):
the state `init('play')` builds after `resize()`. On it every tick is a
ground contact. -/
def lowStart : Game :=
  { W := 1000, H := 100, pipeGap := 160, state := Mode.playing, frame := 0, score := 0,
    best := 0, lives := 3, pipes := [], speedMult := 1,
    bird := { x := 200, y := 45, w := 44, h := 32, vy := 0, angle := 0, color := 0 },
    bgScroll := 0, groundScroll := 0, godMode := false, hitCooldown := false }

/-- The state one tick after `lowStart`: a life lost, soft respawn, a pipe
spawned at the right edge. -/
def lowAfter1 : Game :=
  { lowStart with
    frame := 1, lives := 2,
    pipes := [{ x := 4984 / 5, topH := 50, passed := false }],
    bird := { x := 200, y := 40, w := 44, h := 32, vy := 0, angle := 19 / 625, color := 0 },
    bgScroll := 32 / 25, groundScroll := -24 / 5, hitCooldown := true }

/-- The state one tick after the cooldown of `lowAfter1` expired. -/
def lowAfter2 : Game :=
  { lowAfter1 with lives := 1, bgScroll := 64 / 25, groundScroll := -48 / 5 }

/-- The state one tick after the cooldown of `lowAfter2` expired: the last
life is gone. -/
def lowAfter3 : Game :=
  { lowAfter2 with
    state := Mode.gameover_anim, frame := 2, lives := 0,
    pipes := [{ x := 4968 / 5, topH := 50, passed := false }],
    bird := { x := 200, y := 8, w := 44, h := 32, vy := -5, angle := 19 / 625, color := 0 },
    bgScroll := 96 / 25, groundScroll := -72 / 5 }

/-- A playing state one point short of the win threshold, with the last
life: the first pipe is about to pass the bird (its trailing edge is at
180 = `bird.x` before the tick), the second, spawned after a window resize
from width 900 to 714, is about to reach the bird's hitbox, and its gap
(230 to 430) starts below the bird's top edge. -/
def winThenCrash : Game :=
  { W := 714, H := 600, pipeGap := 200, state := Mode.playing, frame := 1055, score := 9,
    best := 9, lives := 1,
    pipes := [{ x := 116, topH := 100, passed := false }, { x := 218, topH := 230, passed := false },
              { x := 506, topH := 150, passed := false }],
    speedMult := 1,
    bird := { x := 180, y := 150, w := 44, h := 32, vy := 0, angle := 0, color := 4 },
    bgScroll := 0, groundScroll := 0, godMode := false, hitCooldown := false }

/-- The globals of `winThenCrash` when `forEach` starts. -/
def winThenCrashFlying : Game :=
  { winThenCrash with
    bird := { x := 180, y := 7519 / 50, w := 44, h := 32, vy := 19 / 50, angle := 19 / 625, color := 4 },
    bgScroll := 32 / 25, groundScroll := -24 / 5 }

/-- The globals of `winThenCrash` after the callback on the first pipe. -/
def winThenCrashWon : Game :=
  { winThenCrashFlying with
    state := Mode.win, score := 10, best := 10,
    bird := { x := 180, y := 7519 / 50, w := 44, h := 32, vy := 19 / 50, angle := 19 / 625, color := 0 } }

/-- The globals of `winThenCrash` after the callback on the second pipe. -/
def winThenCrashDying : Game :=
  { winThenCrashWon with
    state := Mode.gameover_anim, lives := 0, hitCooldown := true,
    bird := { x := 180, y := 7519 / 50, w := 44, h := 32, vy := -5, angle := 19 / 625, color := 0 } }

/-- A playing state of ordinary play on a viewport 900 wide, one point short
of the win threshold: the tenth pipe is about to pass the bird and the two
pipes spawned after it follow 288 apart. -/
def winWithFollowers : Game :=
  { W := 900, H := 600, pipeGap := 200, state := Mode.playing, frame := 1055, score := 9,
    best := 9, lives := 3,
    pipes := [{ x := 116, topH := 100, passed := false }, { x := 404, topH := 200, passed := false },
              { x := 692, topH := 150, passed := false }],
    speedMult := 1,
    bird := { x := 180, y := 150, w := 44, h := 32, vy := 0, angle := 0, color := 4 },
    bgScroll := 0, groundScroll := 0, godMode := false, hitCooldown := false }

/-- The globals of `winWithFollowers` when `forEach` starts. -/
def winWithFollowersFlying : Game :=
  { winWithFollowers with
    bird := { x := 180, y := 7519 / 50, w := 44, h := 32, vy := 19 / 50, angle := 19 / 625, color := 4 },
    bgScroll := 32 / 25, groundScroll := -24 / 5 }

/-- The globals of `winWithFollowers` after the callback on the first pipe. -/
def winWithFollowersWon : Game :=
  { winWithFollowersFlying with
    state := Mode.win, score := 10, best := 10,
    bird := { x := 180, y := 7519 / 50, w := 44, h := 32, vy := 19 / 50, angle := 19 / 625, color := 0 } }

/-- A fresh session in playing mode on a short landscape viewport (640 by
300): the state `init('play')` builds after `resize()`. -/
def shortStart : Game :=
  { W := 640, H := 300, pipeGap := 160, state := Mode.playing, frame := 0, score := 0,
    best := 0, lives := 3, pipes := [], speedMult := 1,
    bird := { x := 128, y := 135, w := 44, h := 32, vy := 0, angle := 0, color := 0 },
    bgScroll := 0, groundScroll := 0, godMode := false, hitCooldown := false }

/-- A fresh session in playing mode on a viewport 900 by 600. -/
def tallStart : Game :=
  { W := 900, H := 600, pipeGap := 200, state := Mode.playing, frame := 0, score := 0,
    best := 0, lives := 3, pipes := [], speedMult := 1,
    bird := { x := 180, y := 270, w := 44, h := 32, vy := 0, angle := 0, color := 0 },
    bgScroll := 0, groundScroll := 0, godMode := false, hitCooldown := false }

/-- A playing state with the last life, the bird clamped on the ground line
of a viewport 600 high: the state on which `loop` calls `handleHit` at a
ground contact. -/
def lastLifeOnGround : Game :=
  { W := 900, H := 600, pipeGap := 200, state := Mode.playing, frame := 40, score := 2,
    best := 6, lives := 1, pipes := [{ x := 772, topH := 150, passed := false }],
    speedMult := 1,
    bird := { x := 180, y := 508, w := 44, h := 32, vy := 9, angle := 18 / 25, color := 2 },
    bgScroll := 0, groundScroll := 0, godMode := false, hitCooldown := false }

/-- The dying state `handleHit` leaves from `lastLifeOnGround`. -/
def dyingOnGround : Game :=
  { lastLifeOnGround with
    state := Mode.gameover_anim, lives := 0, hitCooldown := true,
    bird := { x := 180, y := 508, w := 44, h := 32, vy := -5, angle := 18 / 25, color := 2 } }

/-- Whether an event is a new call of `bootGame`, which reads `best` anew
from storage. -/
def Event.isReboot : Event → Bool
  | Event.reboot _ _ _ => true
  | _ => false

/-- Whether the best score an event reads from storage, if it reads one, is
not negative (the only values the program itself stores are positive). -/
def Event.storedNonneg : Event → Bool
  | Event.reboot bestScore _ _ => decide (0 ≤ bestScore)
  | _ => true

/-- A playing state whose run has just equalled the best score 5. -/
def fivePoints : Game :=
  { W := 900, H := 600, pipeGap := 200, state := Mode.playing, frame := 515, score := 5,
    best := 5, lives := 3, pipes := [{ x := 116, topH := 100, passed := false }],
    speedMult := 1,
    bird := { x := 180, y := 150, w := 44, h := 32, vy := 0, angle := 0, color := 0 },
    bgScroll := 0, groundScroll := 0, godMode := false, hitCooldown := false }

/-- The position of a pipe: its horizontal position and the start of its
gap. -/
def Pipe.position (p : Pipe) : ℚ × ℚ := (p.x, p.topH)

/-- Reference stream step, written from the words of the specification:
take the previous list, append one new unscored obstacle at `x = W` exactly
when the tick counter is a multiple of 90, subtract the speed from the `x` of
every obstacle, then remove exactly the obstacles whose trailing edge
`x + 64` is `<= -10`, keeping the order. -/
def streamStep (w spd : ℚ) (tick : Nat) (newTopH : ℚ) (ps : List Pipe) : List Pipe :=
  let spawned := if tick % 90 = 0 then ps ++ [{ x := w, topH := newTopH, passed := false }] else ps
  let advanced := spawned.map (fun p => { p with x := p.x - spd })
  advanced.filter (fun p => !decide (p.x + 64 ≤ -10))

/-- A playing state right after a flap close to the top of the viewport: the
next integration takes the bird above the ceiling. -/
def nearCeiling : Game :=
  { W := 900, H := 600, pipeGap := 200, state := Mode.playing, frame := 37, score := 0,
    best := 6, lives := 3, pipes := [], speedMult := 1,
    bird := { x := 180, y := 3, w := 44, h := 32, vy := -8, angle := 0, color := 0 },
    bgScroll := 0, groundScroll := 0, godMode := false, hitCooldown := false }

/-- Rounding of a rational to the nearest integer, a tie going to the even
neighbour. -/
def roundHalfEven (x : ℚ) : ℤ :=
  if x - ⌊x⌋ < 1 / 2 then ⌊x⌋
  else if 1 / 2 < x - ⌊x⌋ then ⌊x⌋ + 1
  else if ⌊x⌋ % 2 = 0 then ⌊x⌋ else ⌊x⌋ + 1

/-- The exponent of the last place of the doubles around `x`: 52 below the
binade of `|x|`, and never below -1074 (the subnormal range). -/
def ulpExponent (x : ℚ) : ℤ :=
  max (Int.log 2 |x| - 52) (-1074)

/-- The value of an arithmetic result `x` as a JavaScript number: IEEE 754
binary64 rounding, to the nearest multiple of `2 ^ ulpExponent x`, ties to
even. Overflow to infinity is outside the model (no spawn quantity comes
near it). -/
def roundDouble (x : ℚ) : ℚ :=
  (roundHalfEven (x / 2 ^ ulpExponent x) : ℚ) * 2 ^ ulpExponent x

/-- The bound `maxT` of lines 541-542 of `loop` as JavaScript computes it:
every addition and subtraction rounded to a double. -/
def spawnMaxTDouble (h pipeGap : ℚ) : ℚ :=
  max (roundDouble (spawnMargin h + 20))
    (roundDouble (roundDouble (roundDouble (h - spawnMargin h) - pipeGap) - spawnMargin h))

/-- The offset `topH: margin + Math.random() * (maxT - margin)` of line 543
as JavaScript computes it: the difference, the product and the sum each
rounded to a double. The field `topH` of the pipe pushed by `spawn` is the
same expression without the roundings. -/
def spawnTopHDouble (h pipeGap rnd : ℚ) : ℚ :=
  roundDouble (spawnMargin h +
    roundDouble (rnd * roundDouble (spawnMaxTDouble h pipeGap - spawnMargin h)))

/-! ## Collision geometry -/

/-- C1: with the hitbox of the bird built by `init` (width 44 - 8 = 36, height
32 - 6 = 26, anchored at the bird's position) and a pipe 64 wide,
`checkCollision` is true exactly when the horizontal extents meet and the
hitbox leaves the gap vertically; a hitbox lying inside the gap never
collides, whatever its horizontal position. -/
theorem checkCollision_iff_overlap_and_outside_gap (b : Bird) (gap : ℚ) (p : Pipe)
    (hw : b.w = 44) (hh : b.h = 32) :
    (checkCollision b gap p = true ↔
      ((b.x + 36 ≥ p.x ∧ b.x ≤ p.x + 64) ∧ (b.y < p.topH ∨ b.y + 26 > p.topH + gap))) ∧
    (p.topH ≤ b.y ∧ b.y + 26 ≤ p.topH + gap → checkCollision b gap p = false) := by
  have h36 : b.w - 8 = 36 := by rw [hw]; norm_num
  have h26 : b.h - 6 = 26 := by rw [hh]; norm_num
  have key : checkCollision b gap p = true ↔
      ((b.x + 36 ≥ p.x ∧ b.x ≤ p.x + 64) ∧ (b.y < p.topH ∨ b.y + 26 > p.topH + gap)) := by
    unfold checkCollision
    simp only [h36, h26, PIPE_W]
    by_cases hx : b.x + 36 < p.x ∨ b.x > p.x + 64
    · rw [if_pos hx]
      constructor
      · intro h
        exact absurd h (by decide)
      · rintro ⟨⟨h1, h2⟩, -⟩
        rcases hx with hx | hx
        · exact absurd h1 (not_le.mpr hx)
        · exact absurd h2 (not_le.mpr hx)
    · rw [if_neg hx]
      push_neg at hx
      simp only [decide_eq_true_eq]
      constructor
      · intro h
        exact ⟨⟨hx.1, hx.2⟩, h⟩
      · intro h
        exact h.2
  refine ⟨key, ?_⟩
  rintro ⟨h1, h2⟩
  by_contra hc
  have ht : checkCollision b gap p = true := by
    cases hcc : checkCollision b gap p
    · exact absurd hcc hc
    · rfl
  rcases (key.mp ht).2 with h | h
  · exact absurd h1 (not_le.mpr h)
  · exact absurd h2 (not_le.mpr h)

/-- C1 at a concrete input: gap 200 starting at 100, the 26-high hitbox
centred on the gap midpoint 200 and overlapping the pipe horizontally. -/
theorem checkCollision_iff_overlap_and_outside_gap_witness :
    checkCollision { x := 220, y := 187, w := 44, h := 32, vy := 0, angle := 0, color := 0 } 200
      { x := 200, topH := 100, passed := false } = false :=
  (checkCollision_iff_overlap_and_outside_gap
    { x := 220, y := 187, w := 44, h := 32, vy := 0, angle := 0, color := 0 } 200
    { x := 200, topH := 100, passed := false } rfl rfl).2 ⟨by norm_num, by norm_num⟩

/-! ## `handleHit` -/

theorem handleHit_of_godMode (g : Game) (h : g.godMode = true) : handleHit g = g := by
  simp [handleHit, h]

theorem handleHit_of_cooldown (g : Game) (h : g.hitCooldown = true) : handleHit g = g := by
  simp [handleHit, h]

/-- The three outcomes of `handleHit`: ignored, fatal, soft respawn. -/
theorem handleHit_cases (g : Game) :
    handleHit g = g ∨
    (g.godMode = false ∧ g.hitCooldown = false ∧ g.lives - 1 ≤ 0 ∧
      handleHit g =
        { g with hitCooldown := true, lives := g.lives - 1, state := Mode.gameover_anim,
                 bird := { g.bird with vy := -5 } }) ∨
    (g.godMode = false ∧ g.hitCooldown = false ∧ ¬ (g.lives - 1 ≤ 0) ∧
      handleHit g =
        { g with hitCooldown := true, lives := g.lives - 1,
                 bird := { g.bird with y := g.H * (4 / 10), vy := 0 },
                 pipes := [], frame := 0 }) := by
  unfold handleHit
  cases hg : g.godMode
  · cases hc : g.hitCooldown
    · by_cases hl : g.lives - 1 ≤ 0
      · right; left
        simp [hl]
      · right; right
        simp [hl]
    · left; simp
  · left; simp

@[simp] theorem handleHit_bird_x (g : Game) : (handleHit g).bird.x = g.bird.x := by
  rcases handleHit_cases g with h | ⟨-, -, -, h⟩ | ⟨-, -, -, h⟩ <;> rw [h]

@[simp] theorem handleHit_bird_w (g : Game) : (handleHit g).bird.w = g.bird.w := by
  rcases handleHit_cases g with h | ⟨-, -, -, h⟩ | ⟨-, -, -, h⟩ <;> rw [h]

@[simp] theorem handleHit_bird_h (g : Game) : (handleHit g).bird.h = g.bird.h := by
  rcases handleHit_cases g with h | ⟨-, -, -, h⟩ | ⟨-, -, -, h⟩ <;> rw [h]

@[simp] theorem handleHit_H (g : Game) : (handleHit g).H = g.H := by
  rcases handleHit_cases g with h | ⟨-, -, -, h⟩ | ⟨-, -, -, h⟩ <;> rw [h]

@[simp] theorem handleHit_W (g : Game) : (handleHit g).W = g.W := by
  rcases handleHit_cases g with h | ⟨-, -, -, h⟩ | ⟨-, -, -, h⟩ <;> rw [h]

@[simp] theorem handleHit_pipeGap (g : Game) : (handleHit g).pipeGap = g.pipeGap := by
  rcases handleHit_cases g with h | ⟨-, -, -, h⟩ | ⟨-, -, -, h⟩ <;> rw [h]

@[simp] theorem handleHit_speedMult (g : Game) : (handleHit g).speedMult = g.speedMult := by
  rcases handleHit_cases g with h | ⟨-, -, -, h⟩ | ⟨-, -, -, h⟩ <;> rw [h]

@[simp] theorem handleHit_godMode (g : Game) : (handleHit g).godMode = g.godMode := by
  rcases handleHit_cases g with h | ⟨-, -, -, h⟩ | ⟨-, -, -, h⟩ <;> rw [h]

@[simp] theorem handleHit_score (g : Game) : (handleHit g).score = g.score := by
  rcases handleHit_cases g with h | ⟨-, -, -, h⟩ | ⟨-, -, -, h⟩ <;> rw [h]

@[simp] theorem handleHit_best (g : Game) : (handleHit g).best = g.best := by
  rcases handleHit_cases g with h | ⟨-, -, -, h⟩ | ⟨-, -, -, h⟩ <;> rw [h]

/-- The test `handleHitRebinds` says when `handleHit` takes its last branch. -/
theorem handleHit_pipes (g : Game) :
    (handleHit g).pipes = if handleHitRebinds g then [] else g.pipes := by
  rcases handleHit_cases g with h | ⟨hg, hc, hl, h⟩ | ⟨hg, hc, hl, h⟩
  · by_cases hr : handleHitRebinds g = true
    · have hr' := hr
      simp only [handleHitRebinds, Bool.and_eq_true, Bool.not_eq_true', decide_eq_false_iff_not] at hr'
      obtain ⟨⟨hg, hc⟩, hl⟩ := hr'
      simp [handleHit, hg, hc, hl, hr]
    · simp [hr, h]
  · rw [h]; simp [handleHitRebinds, hl]
  · rw [h]; simp [handleHitRebinds, hg, hc, hl]

/-- C7: in a playing state with at least two lives, god mode off and no hit
cooldown active, `handleHit` removes exactly one life, puts the bird at
`y = 0.4 * H` with vertical velocity 0, empties the pipe list, resets the
frame counter, stays in playing, and leaves score and best score unchanged. -/
theorem handleHit_soft_respawn (g : Game) (hs : g.state = Mode.playing) (hl : 2 ≤ g.lives)
    (hg : g.godMode = false) (hc : g.hitCooldown = false) :
    (handleHit g).lives = g.lives - 1 ∧
    (handleHit g).bird.y = (4 / 10) * g.H ∧
    (handleHit g).bird.vy = 0 ∧
    (handleHit g).pipes = [] ∧
    (handleHit g).frame = 0 ∧
    (handleHit g).state = Mode.playing ∧
    (handleHit g).score = g.score ∧
    (handleHit g).best = g.best := by
  have hl' : ¬ (g.lives - 1 ≤ 0) := by omega
  have he : handleHit g =
      { g with hitCooldown := true, lives := g.lives - 1,
               bird := { g.bird with y := g.H * (4 / 10), vy := 0 },
               pipes := [], frame := 0 } := by
    simp [handleHit, hg, hc, hl']
  rw [he]
  exact ⟨rfl, mul_comm _ _, rfl, rfl, rfl, hs, rfl, rfl⟩

/-- C7 at a concrete input: playing, 3 lives, score 4, one pipe on screen. -/
theorem handleHit_soft_respawn_witness :
    (handleHit
      { W := 1000, H := 600, pipeGap := 200, state := Mode.playing, frame := 37, score := 4,
        best := 6, lives := 3, pipes := [{ x := 500, topH := 100, passed := false }],
        speedMult := 1,
        bird := { x := 200, y := 508, w := 44, h := 32, vy := 9, angle := 0, color := 4 },
        bgScroll := 0, groundScroll := 0, godMode := false, hitCooldown := false }).lives = 2 :=
  (handleHit_soft_respawn _ rfl (by decide) rfl rfl).1

/-! ## `init` -/

/-- C8: from every prior state, `init(m)` yields 3 lives, score 0, no pipes,
frame counter 0, the bird at `y = 0.45 * H` with velocity 0 and the best score
unchanged; the mode is `start` when `m = 'start'` and `playing` otherwise. -/
theorem init_resets_session (g : Game) (m : String) :
    (init g m).lives = 3 ∧
    (init g m).score = 0 ∧
    (init g m).pipes = [] ∧
    (init g m).frame = 0 ∧
    (init g m).bird.y = (45 / 100) * g.H ∧
    (init g m).bird.vy = 0 ∧
    (init g m).best = g.best ∧
    (m = "start" → (init g m).state = Mode.start) ∧
    (m ≠ "start" → (init g m).state = Mode.playing) := by
  refine ⟨rfl, rfl, rfl, rfl, mul_comm _ _, rfl, rfl, ?_, ?_⟩
  · intro h
    simp [init, h]
  · intro h
    simp [init, h]

/-- C8 at the scenario of the specification: reset in the middle of play with
1 life and 2 pipes on screen. -/
theorem init_resets_session_witness :
    (init
      { W := 1000, H := 600, pipeGap := 200, state := Mode.playing, frame := 100, score := 2,
        best := 6, lives := 1,
        pipes := [{ x := 400, topH := 100, passed := false }, { x := 688, topH := 150, passed := false }],
        speedMult := 1,
        bird := { x := 200, y := 300, w := 44, h := 32, vy := 2, angle := 0, color := 2 },
        bgScroll := 0, groundScroll := 0, godMode := false, hitCooldown := false } "play").state
      = Mode.playing :=
  (init_resets_session _ "play").2.2.2.2.2.2.2.2 (by decide)

/-! ## `onInput` -/

/-- C10: in `start` or `playing`, one effective `onInput` leaves the vertical
velocity at exactly `JUMP = -8` and the mode playing, whatever the velocity
was, and any number of further calls with no tick in between give the same
state. -/
theorem onInput_idempotent_overwrite (g : Game)
    (hs : g.state = Mode.start ∨ g.state = Mode.playing) :
    (onInput g false).bird.vy = JUMP ∧
    JUMP = -8 ∧
    (onInput g false).state = Mode.playing ∧
    onInput (onInput g false) false = onInput g false ∧
    ∀ n : Nat, (fun s => onInput s false)^[n + 1] g = onInput g false := by
  have h1 : (onInput g false).state = Mode.playing := by
    rcases hs with h | h <;> simp [onInput, flap, h]
  have h2 : onInput (onInput g false) false = onInput g false := by
    rcases hs with h | h <;> simp [onInput, flap, h]
  refine ⟨?_, rfl, h1, h2, ?_⟩
  · rcases hs with h | h <;> simp [onInput, flap, h]
  · intro n
    induction n with
    | zero => rfl
    | succ k ih =>
      rw [Function.iterate_succ_apply', ih]
      exact h2

/-- C10 at a concrete input: an idle state with a stale velocity. -/
theorem onInput_idempotent_overwrite_witness :
    (onInput
      { W := 1000, H := 600, pipeGap := 200, state := Mode.start, frame := 12, score := 0,
        best := 6, lives := 3, pipes := [], speedMult := 1,
        bird := { x := 200, y := 275, w := 44, h := 32, vy := 3, angle := 0, color := 0 },
        bgScroll := 0, groundScroll := 0, godMode := false, hitCooldown := false } false).bird.vy
      = JUMP :=
  (onInput_idempotent_overwrite _ (Or.inl rfl)).1

/-! ## The `forEach` callback -/

/-- The globals right after the collision check of the callback. -/
theorem afterCheck_bird_x (g : Game) (b : Bool) :
    (if b = true then handleHit g else g).bird.x = g.bird.x := by
  cases b <;> simp

/-- The globals after the callback: the collision check, then the scoring. -/
theorem pipeBody_fst (spd : ℚ) (g : Game) (p : Pipe) :
    (pipeBody spd g p).1 =
      (let g1 := if checkCollision g.bird g.pipeGap { p with x := p.x - spd } = true then handleHit g else g
       if passesNow spd g.bird.x p = true then
         (let g4 := { g1 with score := g1.score + 1, best := max g1.best (g1.score + 1),
                              bird := { g1.bird with color := (g1.score + 1) % BIRD_COLORS_length } }
          if g1.score + 1 ≥ WIN_SCORE then { g4 with state := Mode.win } else g4)
       else g1) := by
  simp only [pipeBody, passesNow, afterCheck_bird_x]
  split_ifs <;> rfl

theorem pipeBody_pipe (spd : ℚ) (g : Game) (p : Pipe) :
    (pipeBody spd g p).2.1 = advancePipe spd g.bird.x p := by
  simp only [pipeBody, passesNow, advancePipe, afterCheck_bird_x]
  split_ifs with h1 h2 h2 <;> simp_all

theorem pipeBody_rebound (spd : ℚ) (g : Game) (p : Pipe) :
    (pipeBody spd g p).2.2 =
      (checkCollision g.bird g.pipeGap { p with x := p.x - spd } && handleHitRebinds g) := by
  simp only [pipeBody]
  split_ifs <;> rfl

/-- The globals after the collision check of the callback on `p`. -/
theorem pipeBody_bird_x (spd : ℚ) (g : Game) (p : Pipe) :
    (pipeBody spd g p).1.bird.x = g.bird.x := by
  rw [pipeBody_fst]
  simp only []
  split_ifs <;> simp

theorem pipeBody_score (spd : ℚ) (g : Game) (p : Pipe) :
    (pipeBody spd g p).1.score = g.score + if passesNow spd g.bird.x p = true then 1 else 0 := by
  rw [pipeBody_fst]
  simp only []
  split_ifs <;> simp

theorem pipeBody_lives (spd : ℚ) (g : Game) (p : Pipe) :
    (pipeBody spd g p).1.lives =
      (if checkCollision g.bird g.pipeGap { p with x := p.x - spd } = true then handleHit g else g).lives := by
  rw [pipeBody_fst]
  simp only []
  split_ifs <;> rfl

theorem pipeBody_hitCooldown (spd : ℚ) (g : Game) (p : Pipe) :
    (pipeBody spd g p).1.hitCooldown =
      (if checkCollision g.bird g.pipeGap { p with x := p.x - spd } = true then handleHit g else g).hitCooldown := by
  rw [pipeBody_fst]
  simp only []
  split_ifs <;> rfl

theorem pipeBody_bird_y (spd : ℚ) (g : Game) (p : Pipe) :
    (pipeBody spd g p).1.bird.y =
      (if checkCollision g.bird g.pipeGap { p with x := p.x - spd } = true then handleHit g else g).bird.y := by
  rw [pipeBody_fst]
  simp only []
  split_ifs <;> rfl

theorem pipeBody_bird_vy (spd : ℚ) (g : Game) (p : Pipe) :
    (pipeBody spd g p).1.bird.vy =
      (if checkCollision g.bird g.pipeGap { p with x := p.x - spd } = true then handleHit g else g).bird.vy := by
  rw [pipeBody_fst]
  simp only []
  split_ifs <;> rfl

theorem pipeBody_pipes (spd : ℚ) (g : Game) (p : Pipe) :
    (pipeBody spd g p).1.pipes = if (pipeBody spd g p).2.2 = true then [] else g.pipes := by
  rw [pipeBody_rebound, pipeBody_fst]
  simp only []
  cases hcol : checkCollision g.bird g.pipeGap { p with x := p.x - spd }
  · split_ifs <;> simp_all
  · have := handleHit_pipes g
    split_ifs <;> simp_all

/-! ## `pipes.forEach` -/

theorem forEachPipe_bird_x (spd : ℚ) (arr : List Pipe) (g : Game) :
    (forEachPipe spd g arr).1.bird.x = g.bird.x := by
  induction arr generalizing g with
  | nil => rfl
  | cons p rest ih =>
    simp only [forEachPipe]
    rw [ih, pipeBody_bird_x]

/-- Each visited pipe object has been moved, and flagged if it passed. -/
theorem forEachPipe_visited (spd : ℚ) (arr : List Pipe) (g : Game) :
    (forEachPipe spd g arr).2.1 = arr.map (advancePipe spd g.bird.x) := by
  induction arr generalizing g with
  | nil => rfl
  | cons p rest ih =>
    simp only [forEachPipe, List.map_cons]
    rw [ih, pipeBody_bird_x, pipeBody_pipe]

/-- The score grows by one for each pipe that passes on this tick. -/
theorem forEachPipe_score (spd : ℚ) (arr : List Pipe) (g : Game) :
    (forEachPipe spd g arr).1.score = g.score + (arr.countP (passesNow spd g.bird.x) : Nat) := by
  induction arr generalizing g with
  | nil => simp [forEachPipe]
  | cons p rest ih =>
    simp only [forEachPipe]
    rw [ih, pipeBody_bird_x, pipeBody_score, List.countP_cons]
    split_ifs
    · simp_all
      ring
    · simp_all

/-- The global `pipes` after `forEach`, as seen through the model's own
field: emptied exactly when a soft respawn happened on the way. -/
theorem forEachPipe_pipes (spd : ℚ) (arr : List Pipe) (g : Game) :
    (forEachPipe spd g arr).1.pipes = if (forEachPipe spd g arr).2.2 = true then [] else g.pipes := by
  induction arr generalizing g with
  | nil => simp [forEachPipe]
  | cons p rest ih =>
    simp only [forEachPipe]
    rw [ih, pipeBody_pipes]
    by_cases h1 : (pipeBody spd g p).2.2 = true <;>
      by_cases h2 : (forEachPipe spd (pipeBody spd g p).1 rest).2.2 = true <;>
      simp [h1, h2]

/-! ## The stages of `loop` before `forEach` -/

theorem loopBeforeForEach_bird_x (g : Game) (rnd : ℚ) :
    (loopBeforeForEach g rnd).bird.x = g.bird.x := by
  simp only [loopBeforeForEach, spawn, ceilingCheck, groundCheck, integrate]
  split_ifs <;> simp

theorem loopBeforeForEach_score (g : Game) (rnd : ℚ) :
    (loopBeforeForEach g rnd).score = g.score := by
  simp only [loopBeforeForEach, spawn, ceilingCheck, groundCheck, integrate]
  split_ifs <;> simp

theorem unscored_append_new (ps : List Pipe) (x topH : ℚ) :
    unscored (ps ++ [{ x := x, topH := topH, passed := false }]) = unscored ps + 1 := by
  simp [unscored, List.countP_append]

/-- Before `forEach` the list holds at most one more unflagged pipe than at
the start of the tick (the spawned one). -/
theorem loopBeforeForEach_unscored (g : Game) (rnd : ℚ) :
    unscored (loopBeforeForEach g rnd).pipes ≤ unscored g.pipes + 1 := by
  have hg : ∀ g0 : Game, unscored (groundCheck g0).pipes ≤ unscored g0.pipes := by
    intro g0
    simp only [groundCheck]
    split_ifs
    · rw [handleHit_pipes]
      split_ifs
      · simp [unscored]
      · exact le_refl _
    · exact le_refl _
  have hc : ∀ g0 : Game, (ceilingCheck g0).pipes = g0.pipes := by
    intro g0
    simp only [ceilingCheck]
    split_ifs <;> rfl
  have hi : ∀ (g0 : Game) (spd : ℚ), (integrate g0 spd).pipes = g0.pipes := by
    intro g0 spd
    rfl
  have h1 := hg (integrate g (BASE_SPD * g.speedMult))
  rw [hi] at h1
  simp only [loopBeforeForEach, spawn]
  split_ifs
  · simp only [unscored_append_new, hc]
    omega
  · rw [hc]
    omega

/-! ## Pass scoring -/

/-- The pipes of a list that pass on this tick and those that stay unflagged
after it make up the unflagged pipes before it. -/
theorem countP_passesNow_add_unscored (spd bx : ℚ) (arr : List Pipe) :
    arr.countP (passesNow spd bx) + unscored (arr.map (advancePipe spd bx)) = unscored arr := by
  induction arr with
  | nil => rfl
  | cons p rest ih =>
    simp only [unscored, List.countP_map] at ih ⊢
    rw [List.countP_cons, List.countP_cons, List.countP_cons]
    cases hp : p.passed <;> by_cases hx : p.x - spd + PIPE_W < bx <;>
      simp [advancePipe, passesNow, hp, hx] <;> omega

theorem unscored_filter_le (f : Pipe → Bool) (ps : List Pipe) :
    unscored (ps.filter f) ≤ unscored ps := by
  unfold unscored
  exact List.Sublist.countP_le _ (List.filter_sublist ps)

theorem loopBeforeRetire_score (g : Game) (rnd : ℚ) :
    (loopBeforeRetire g rnd).score =
      g.score + ((loopBeforeForEach g rnd).pipes.countP (passesNow (BASE_SPD * g.speedMult) g.bird.x) : Nat) := by
  simp only [loopBeforeRetire]
  rw [forEachPipe_score, loopBeforeForEach_score, loopBeforeForEach_bird_x]

theorem loopBeforeRetire_pipes (g : Game) (rnd : ℚ) :
    (loopBeforeRetire g rnd).pipes =
      if (forEachPipe (BASE_SPD * g.speedMult) (loopBeforeForEach g rnd) (loopBeforeForEach g rnd).pipes).2.2 = true
      then []
      else (loopBeforeForEach g rnd).pipes.map (advancePipe (BASE_SPD * g.speedMult) g.bird.x) := by
  simp only [loopBeforeRetire]
  rw [forEachPipe_pipes, forEachPipe_visited, loopBeforeForEach_bird_x]
  split_ifs <;> simp_all

/-- One tick: the score plus the number of unflagged pipes grows by at most
one (the spawned pipe). -/
theorem loop_score_add_unscored_le (g : Game) (rnd osc : ℚ) :
    (loop g rnd osc).score + (unscored (loop g rnd osc).pipes : Nat) ≤
      g.score + (unscored g.pipes : Nat) + 1 := by
  unfold loop
  cases hs : g.state
  case playing =>
    simp only [retire]
    rw [loopBeforeRetire_score]
    have h1 := unscored_filter_le keepPipe (loopBeforeRetire g rnd).pipes
    have h2 := countP_passesNow_add_unscored (BASE_SPD * g.speedMult) g.bird.x (loopBeforeForEach g rnd).pipes
    have h3 := loopBeforeForEach_unscored g rnd
    have h4 : unscored (loopBeforeRetire g rnd).pipes ≤
        unscored ((loopBeforeForEach g rnd).pipes.map (advancePipe (BASE_SPD * g.speedMult) g.bird.x)) := by
      rw [loopBeforeRetire_pipes]
      split_ifs
      · simp [unscored]
      · exact le_refl _
    omega
  all_goals simp

/-- Over any sequence of ticks the score plus the number of unflagged pipes
grows by at most one per tick: every point scored flags a pipe that was
unflagged. -/
theorem ticks_score_add_unscored_le (inputs : List (ℚ × ℚ)) (g : Game) :
    (ticks g inputs).score + (unscored (ticks g inputs).pipes : Nat) ≤
      g.score + (unscored g.pipes : Nat) + (inputs.length : Nat) := by
  induction inputs generalizing g with
  | nil => simp [ticks]
  | cons i rest ih =>
    have h1 := ih (loop g i.1 i.2)
    have h2 := loop_score_add_unscored_le g i.1 i.2
    have h3 : ticks g (i :: rest) = ticks (loop g i.1 i.2) rest := rfl
    rw [h3]
    simp only [List.length_cons]
    push_cast
    linarith

/-- C2: on a playing tick, with `arr` the array that `forEach` visits,
every pipe of `arr` is moved left by the speed and its `passed` flag is kept
if set and set exactly when, not yet flagged, its trailing edge `x + 64` lies
strictly left of the bird after the move; the score grows by one for each
pipe so flagged on this tick and by nothing else; the pipes the retirement
filter sees are these visited pipes (or none, after a soft respawn), and each
one the filter removes has its flag set when the bird's `x` exceeds -10. Over
any sequence of ticks the points scored never exceed the number of pipes that
were unflagged at the start or spawned on the way (at most one per tick), so
no pipe is counted twice. -/
theorem pass_scores_each_pipe_once (g : Game) (rnd osc : ℚ) (hs : g.state = Mode.playing) :
    (forEachPipe (BASE_SPD * g.speedMult) (loopBeforeForEach g rnd) (loopBeforeForEach g rnd).pipes).2.1 =
      (loopBeforeForEach g rnd).pipes.map (fun p =>
        { x := p.x - BASE_SPD * g.speedMult, topH := p.topH,
          passed := p.passed || decide (p.x - BASE_SPD * g.speedMult + 64 < g.bird.x) }) ∧
    (loop g rnd osc).score =
      g.score + ((loopBeforeForEach g rnd).pipes.countP (fun p =>
        !p.passed && decide (p.x - BASE_SPD * g.speedMult + 64 < g.bird.x)) : Nat) ∧
    ((loopBeforeRetire g rnd).pipes =
        (forEachPipe (BASE_SPD * g.speedMult) (loopBeforeForEach g rnd) (loopBeforeForEach g rnd).pipes).2.1 ∨
      (loopBeforeRetire g rnd).pipes = []) ∧
    (loop g rnd osc).pipes = (loopBeforeRetire g rnd).pipes.filter (fun q => decide (q.x + 64 > -10)) ∧
    (g.bird.x > -10 → ∀ q ∈ (loopBeforeRetire g rnd).pipes, ¬ (q.x + 64 > -10) → q.passed = true) ∧
    (∀ inputs : List (ℚ × ℚ),
      (ticks g inputs).score + (unscored (ticks g inputs).pipes : Nat) ≤
        g.score + (unscored g.pipes : Nat) + (inputs.length : Nat)) := by
  have hloop : loop g rnd osc = retire (loopBeforeRetire g rnd) := by
    simp [loop, hs]
  have hadv : advancePipe (BASE_SPD * g.speedMult) g.bird.x = (fun p : Pipe =>
        ({ x := p.x - BASE_SPD * g.speedMult, topH := p.topH,
           passed := p.passed || decide (p.x - BASE_SPD * g.speedMult + 64 < g.bird.x) } : Pipe)) := by
    funext p
    cases hp : p.passed <;> simp [advancePipe, passesNow, PIPE_W, hp]
  have hpass : passesNow (BASE_SPD * g.speedMult) g.bird.x = (fun p : Pipe =>
        !p.passed && decide (p.x - BASE_SPD * g.speedMult + 64 < g.bird.x)) := by
    funext p
    simp [passesNow, PIPE_W]
  refine ⟨?_, ?_, ?_, ?_, ?_, fun inputs => ticks_score_add_unscored_le inputs g⟩
  · rw [forEachPipe_visited, loopBeforeForEach_bird_x, hadv]
  · rw [hloop]
    simp only [retire]
    rw [loopBeforeRetire_score, hpass]
  · rw [loopBeforeRetire_pipes, forEachPipe_visited, loopBeforeForEach_bird_x]
    split_ifs
    · right; rfl
    · left; rfl
  · rw [hloop]
    simp only [retire]
    congr 1
  · intro hx q hq hrem
    rw [loopBeforeRetire_pipes] at hq
    split_ifs at hq
    · simp at hq
    · rw [hadv] at hq
      obtain ⟨p, -, rfl⟩ := List.mem_map.mp hq
      simp only [gt_iff_lt, not_lt] at hrem
      have : p.x - BASE_SPD * g.speedMult + 64 < g.bird.x := lt_of_le_of_lt hrem hx
      simp [this]

/-- C2 at a concrete input: the first pipe of `midPlay` passes on this tick. -/
theorem pass_scores_each_pipe_once_witness :
    (loop midPlay 0 0).score =
      midPlay.score + ((loopBeforeForEach midPlay 0).pipes.countP (fun p =>
        !p.passed && decide (p.x - BASE_SPD * midPlay.speedMult + 64 < midPlay.bird.x)) : Nat) :=
  (pass_scores_each_pipe_once midPlay 0 0 rfl).2.1

/-! ## Lives -/

/-- The globals after the callback, by its two steps. -/
theorem pipeBody_fst_eq (spd : ℚ) (g : Game) (p : Pipe) :
    (pipeBody spd g p).1 =
      if passesNow spd g.bird.x p = true then
        scorePass (if checkCollision g.bird g.pipeGap { p with x := p.x - spd } = true
          then handleHit g else g)
      else
        (if checkCollision g.bird g.pipeGap { p with x := p.x - spd } = true
          then handleHit g else g) := by
  rw [pipeBody_fst]
  rfl

/-- A property of the globals preserved by `handleHit` and by the scoring
block is preserved by the callback of `forEach`. -/
theorem pipeBody_preserves (P : Game → Prop)
    (hhit : ∀ g : Game, P g → P (handleHit g))
    (hscore : ∀ g : Game, P g → P (scorePass g))
    (spd : ℚ) (g : Game) (p : Pipe) (hP : P g) : P (pipeBody spd g p).1 := by
  have h1 : P (if checkCollision g.bird g.pipeGap { p with x := p.x - spd } = true
      then handleHit g else g) := by
    split_ifs
    · exact hhit g hP
    · exact hP
  rw [pipeBody_fst_eq]
  generalize (if checkCollision g.bird g.pipeGap { p with x := p.x - spd } = true
      then handleHit g else g) = g1 at h1 ⊢
  by_cases hp : passesNow spd g.bird.x p = true
  · rw [if_pos hp]
    exact hscore g1 h1
  · rw [if_neg hp]
    exact h1

/-- Such a property is preserved by the whole `forEach`. -/
theorem forEachPipe_preserves (P : Game → Prop)
    (hhit : ∀ g : Game, P g → P (handleHit g))
    (hscore : ∀ g : Game, P g → P (scorePass g))
    (spd : ℚ) (arr : List Pipe) (g : Game) (hP : P g) : P (forEachPipe spd g arr).1 := by
  induction arr generalizing g with
  | nil => exact hP
  | cons p rest ih =>
    simp only [forEachPipe]
    exact ih _ (pipeBody_preserves P hhit hscore spd g p hP)

/-- The scoring block leaves `lives` and `hitCooldown` alone and changes the
mode at most to `win`. -/
theorem scorePass_dep (P : Game → Prop)
    (hdep : ∀ g g0 : Game, g.lives = g0.lives → g.hitCooldown = g0.hitCooldown →
      (g.state = g0.state ∨ g.state = Mode.win) → P g0 → P g)
    (g : Game) (hP : P g) : P (scorePass g) := by
  unfold scorePass
  simp only []
  split_ifs
  · exact hdep _ g rfl rfl (Or.inr rfl) hP
  · exact hdep _ g rfl rfl (Or.inl rfl) hP

theorem loopBeforeForEach_preserves (P : Game → Prop)
    (hdep : ∀ g g0 : Game, g.lives = g0.lives → g.hitCooldown = g0.hitCooldown →
      (g.state = g0.state ∨ g.state = Mode.win) → P g0 → P g)
    (hhit : ∀ g : Game, P g → P (handleHit g))
    (g : Game) (rnd : ℚ) (hP : P g) : P (loopBeforeForEach g rnd) := by
  unfold loopBeforeForEach
  have h1 : P (integrate g (BASE_SPD * g.speedMult)) := hdep _ g rfl rfl (Or.inl rfl) hP
  generalize integrate g (BASE_SPD * g.speedMult) = a at h1
  have h2 : P (groundCheck a) := by
    unfold groundCheck
    split_ifs
    · exact hhit _ (hdep _ a rfl rfl (Or.inl rfl) h1)
    · exact h1
  generalize groundCheck a = b at h2
  have h3 : P (ceilingCheck b) := by
    unfold ceilingCheck
    split_ifs
    · exact hdep _ b rfl rfl (Or.inl rfl) h2
    · exact h2
  generalize ceilingCheck b = c at h3
  unfold spawn
  split_ifs
  · exact hdep _ c rfl rfl (Or.inl rfl) h3
  · exact h3

/-- Such a property is preserved by the whole playing branch of `loop`. -/
theorem playing_tick_preserves (P : Game → Prop)
    (hdep : ∀ g g0 : Game, g.lives = g0.lives → g.hitCooldown = g0.hitCooldown →
      (g.state = g0.state ∨ g.state = Mode.win) → P g0 → P g)
    (hhit : ∀ g : Game, P g → P (handleHit g))
    (g : Game) (rnd : ℚ) (hP : P g) : P (retire (loopBeforeRetire g rnd)) := by
  have h1 := loopBeforeForEach_preserves P hdep hhit g rnd hP
  have h2 := forEachPipe_preserves P hhit (scorePass_dep P hdep) (BASE_SPD * g.speedMult)
    (loopBeforeForEach g rnd).pipes (loopBeforeForEach g rnd) h1
  exact hdep _ (forEachPipe (BASE_SPD * g.speedMult) (loopBeforeForEach g rnd)
    (loopBeforeForEach g rnd).pipes).1 rfl rfl (Or.inl rfl) h2

theorem handleHit_TickInv (g : Game) (h : TickInv g) : TickInv (handleHit g) := by
  obtain ⟨⟨h0, h3, hz⟩, hc⟩ := h
  rcases handleHit_cases g with he | ⟨hg, hcd, hl, he⟩ | ⟨hg, hcd, hl, he⟩
  · rw [he]
    exact ⟨⟨h0, h3, hz⟩, hc⟩
  · have hne : g.lives ≠ 0 := by
      intro h
      rw [hc h] at hcd
      exact absurd hcd (by decide)
    rw [he]
    refine ⟨⟨?_, ?_, ?_⟩, ?_⟩
    · show 0 ≤ g.lives - 1
      omega
    · show g.lives - 1 ≤ 3
      omega
    · intro _
      refine ⟨?_, ?_⟩
      · show Mode.gameover_anim ≠ Mode.playing
        decide
      · show Mode.gameover_anim ≠ Mode.start
        decide
    · intro _
      rfl
  · rw [he]
    refine ⟨⟨?_, ?_, ?_⟩, ?_⟩
    · show 0 ≤ g.lives - 1
      omega
    · show g.lives - 1 ≤ 3
      omega
    · intro h
      change g.lives - 1 = 0 at h
      omega
    · intro _
      rfl

theorem TickInv_dep (g g0 : Game) (hl : g.lives = g0.lives) (hc : g.hitCooldown = g0.hitCooldown)
    (hs : g.state = g0.state ∨ g.state = Mode.win) (h : TickInv g0) : TickInv g := by
  obtain ⟨⟨h0, h3, hz⟩, hcd⟩ := h
  refine ⟨⟨hl ▸ h0, hl ▸ h3, ?_⟩, ?_⟩
  · intro h
    rw [hl] at h
    rcases hs with hs | hs
    · rw [hs]
      exact hz h
    · rw [hs]
      exact ⟨by decide, by decide⟩
  · intro h
    rw [hl] at h
    rw [hc]
    exact hcd h

theorem handleHit_AtMostOneHit (g0 g : Game) (h : AtMostOneHit g0 g) :
    AtMostOneHit g0 (handleHit g) := by
  rcases handleHit_cases g with he | ⟨hg, hcd, hl, he⟩ | ⟨hg, hcd, hl, he⟩
  · rw [he]
    exact h
  · rcases h with h | ⟨-, h⟩
    · rw [he]
      right
      exact ⟨by show g.lives - 1 = g0.lives - 1; omega, rfl⟩
    · rw [h] at hcd
      exact absurd hcd (by decide)
  · rcases h with h | ⟨-, h⟩
    · rw [he]
      right
      exact ⟨by show g.lives - 1 = g0.lives - 1; omega, rfl⟩
    · rw [h] at hcd
      exact absurd hcd (by decide)

theorem AtMostOneHit_dep (g0 g g1 : Game) (hl : g.lives = g1.lives)
    (hc : g.hitCooldown = g1.hitCooldown) (h : AtMostOneHit g0 g1) : AtMostOneHit g0 g := by
  unfold AtMostOneHit at h ⊢
  rw [hl, hc]
  exact h

/-- A tick removes at most one life. -/
theorem loop_lives (g : Game) (rnd osc : ℚ) :
    (loop g rnd osc).lives = g.lives ∨ (loop g rnd osc).lives = g.lives - 1 := by
  unfold loop
  cases hs : g.state
  case playing =>
    have h := playing_tick_preserves (AtMostOneHit g)
      (fun a b hl hc _ hb => AtMostOneHit_dep g a b hl hc hb)
      (fun a ha => handleHit_AtMostOneHit g a ha) g rnd (Or.inl rfl)
    rcases h with h | ⟨h, -⟩
    · exact Or.inl h
    · exact Or.inr h
  all_goals exact Or.inl rfl

theorem loop_LivesOk (g : Game) (rnd osc : ℚ) (h : LivesOk g) : LivesOk (loop g rnd osc) := by
  unfold loop
  cases hs : g.state
  case playing =>
    have hT : TickInv g := by
      refine ⟨h, ?_⟩
      intro hz
      exact absurd hs (h.2.2 hz).1
    exact (playing_tick_preserves TickInv TickInv_dep handleHit_TickInv g rnd hT).1
  case start =>
    obtain ⟨h0, h3, hz⟩ := h
    refine ⟨h0, h3, ?_⟩
    intro hl
    have := (hz hl).2
    exact absurd hs this
  all_goals exact h

theorem init_LivesOk (g : Game) (m : String) : LivesOk (init g m) := by
  refine ⟨?_, ?_, ?_⟩
  · show (0 : Int) ≤ 3
    decide
  · show (3 : Int) ≤ 3
    decide
  · intro hl
    change (3 : Int) = 0 at hl
    exact absurd hl (by decide)

theorem onInput_LivesOk (g : Game) (onUi : Bool) (h : LivesOk g) : LivesOk (onInput g onUi) := by
  obtain ⟨h0, h3, hz⟩ := h
  unfold onInput
  cases onUi
  · cases hs : g.state
    case start =>
      refine ⟨h0, h3, ?_⟩
      intro hl
      exact absurd hs (hz hl).2
    case playing =>
      refine ⟨h0, h3, ?_⟩
      intro hl
      exact absurd hs (hz hl).1
    all_goals exact ⟨h0, h3, hz⟩
  · exact ⟨h0, h3, hz⟩

theorem step_LivesOk (g : Game) (e : Event) (h : LivesOk g) : LivesOk (step g e) := by
  cases e with
  | tick rnd osc => exact loop_LivesOk g rnd osc h
  | input onUi => exact onInput_LivesOk g onUi h
  | reset fromState => exact init_LivesOk g fromState
  | cooldownExpire => exact h
  | deathTimer =>
    obtain ⟨h0, h3, -⟩ := h
    refine ⟨h0, h3, fun _ => ⟨?_, ?_⟩⟩
    · show Mode.dead ≠ Mode.playing
      decide
    · show Mode.dead ≠ Mode.start
      decide
  | resized w h' => exact h
  | toggleGod => exact h
  | reboot bestScore w h' => exact init_LivesOk _ "start"

theorem run_LivesOk (es : List Event) (g : Game) (h : LivesOk g) : LivesOk (run g es) := by
  induction es generalizing g with
  | nil => exact h
  | cons e rest ih => exact ih (step g e) (step_LivesOk g e h)

/-- C3: in every state reachable from boot through ticks, inputs, resets,
the cooldown expiry, the death timer, resizes and the cheat toggle, `lives`
lies between 0 and 3 and a state with no life left is not playing; a tick
removes at most one life, and the hit that takes the last life leaves playing
for the dying state `gameover_anim`. -/
theorem lives_in_range_of_reachable (g : Game) (h : Reachable g) :
    0 ≤ g.lives ∧ g.lives ≤ 3 ∧
    (g.lives = 0 → g.state ≠ Mode.playing) ∧
    (∀ rnd osc : ℚ, (loop g rnd osc).lives = g.lives ∨ (loop g rnd osc).lives = g.lives - 1) ∧
    (g.lives = 1 → g.godMode = false → g.hitCooldown = false →
      (handleHit g).lives = 0 ∧ (handleHit g).state = Mode.gameover_anim) := by
  obtain ⟨bestScore, w, h', es, rfl⟩ := h
  have hboot : LivesOk (bootGame loaded bestScore w h') := init_LivesOk _ "start"
  obtain ⟨h0, h3, hz⟩ := run_LivesOk es _ hboot
  refine ⟨h0, h3, fun hl => (hz hl).1, fun rnd osc => loop_lives _ rnd osc, ?_⟩
  intro h1 hg hc
  simp [handleHit, hg, hc, h1]

/-- C3 at a concrete input: the state two events after a boot. -/
theorem lives_in_range_of_reachable_witness :
    0 ≤ (run (bootGame loaded 5 1000 600) [Event.input false, Event.tick 0 0]).lives ∧
    (run (bootGame loaded 5 1000 600) [Event.input false, Event.tick 0 0]).lives ≤ 3 :=
  ⟨(lives_in_range_of_reachable _ ⟨5, 1000, 600, [Event.input false, Event.tick 0 0], rfl⟩).1,
   (lives_in_range_of_reachable _ ⟨5, 1000, 600, [Event.input false, Event.tick 0 0], rfl⟩).2.1⟩

/-! ## Integration -/

/-- With no ground contact and no ceiling contact the stages before `forEach`
integrate the bird and touch nothing else of it. -/
theorem loopBeforeForEach_free_flight (g : Game) (rnd : ℚ)
    (hground : ¬ groundContact g) (hceil : ¬ ceilingContact g) :
    (loopBeforeForEach g rnd).bird.y = g.bird.y + (g.bird.vy + GRAVITY) ∧
    (loopBeforeForEach g rnd).bird.vy = g.bird.vy + GRAVITY ∧
    (loopBeforeForEach g rnd).lives = g.lives := by
  unfold groundContact at hground
  unfold ceilingContact at hceil
  have h1 : groundCheck (integrate g (BASE_SPD * g.speedMult)) = integrate g (BASE_SPD * g.speedMult) := by
    unfold groundCheck
    rw [if_neg]
    exact hground
  have h2 : ceilingCheck (integrate g (BASE_SPD * g.speedMult)) = integrate g (BASE_SPD * g.speedMult) := by
    unfold ceilingCheck
    rw [if_neg]
    exact hceil
  unfold loopBeforeForEach
  rw [h1, h2]
  unfold spawn
  split_ifs <;> exact ⟨rfl, rfl, rfl⟩

/-- When `forEach` ends with the lives it started with, no hit took effect
and the bird's vertical position and velocity are those it started with. -/
theorem forEachPipe_no_life_lost (spd : ℚ) (arr : List Pipe) (g : Game)
    (h : (forEachPipe spd g arr).1.lives = g.lives) :
    (forEachPipe spd g arr).1.bird.y = g.bird.y ∧ (forEachPipe spd g arr).1.bird.vy = g.bird.vy := by
  have key := forEachPipe_preserves
    (fun a => (a.lives = g.lives ∧ a.bird.y = g.bird.y ∧ a.bird.vy = g.bird.vy) ∨ a.lives < g.lives)
    (by
      intro a ha
      rcases handleHit_cases a with he | ⟨-, -, -, he⟩ | ⟨-, -, -, he⟩
      · rw [he]
        exact ha
      · rw [he]
        right
        show a.lives - 1 < g.lives
        rcases ha with ⟨ha, -, -⟩ | ha <;> omega
      · rw [he]
        right
        show a.lives - 1 < g.lives
        rcases ha with ⟨ha, -, -⟩ | ha <;> omega)
    (by
      intro a ha
      unfold scorePass
      simp only []
      split_ifs <;> exact ha)
    spd arr g (Or.inl ⟨rfl, rfl, rfl⟩)
  rcases key with ⟨-, hy, hv⟩ | hlt
  · exact ⟨hy, hv⟩
  · omega

/-- On a playing tick with no ground contact, no ceiling contact and no life
lost, the bird is integrated: the velocity gains `GRAVITY` and the position
gains the new velocity. -/
theorem loop_free_flight (g : Game) (rnd osc : ℚ) (hs : g.state = Mode.playing)
    (hground : ¬ groundContact g) (hceil : ¬ ceilingContact g)
    (hnohit : (loop g rnd osc).lives = g.lives) :
    (loop g rnd osc).bird.y = g.bird.y + (g.bird.vy + GRAVITY) ∧
    (loop g rnd osc).bird.vy = g.bird.vy + GRAVITY := by
  have hloop : loop g rnd osc = retire (loopBeforeRetire g rnd) := by
    simp [loop, hs]
  obtain ⟨hy, hv, hl⟩ := loopBeforeForEach_free_flight g rnd hground hceil
  rw [hloop] at hnohit ⊢
  have hn : (forEachPipe (BASE_SPD * g.speedMult) (loopBeforeForEach g rnd)
      (loopBeforeForEach g rnd).pipes).1.lives = (loopBeforeForEach g rnd).lives := by
    rw [hl]
    exact hnohit
  obtain ⟨h1, h2⟩ := forEachPipe_no_life_lost _ _ _ hn
  constructor
  · show (forEachPipe (BASE_SPD * g.speedMult) (loopBeforeForEach g rnd)
      (loopBeforeForEach g rnd).pipes).1.bird.y = _
    rw [h1, hy]
  · show (forEachPipe (BASE_SPD * g.speedMult) (loopBeforeForEach g rnd)
      (loopBeforeForEach g rnd).pipes).1.bird.vy = _
    rw [h2, hv]

/-- One tick of `quietFall`, evaluated. -/
theorem loop_quietFall :
    loop quietFall 0 0 =
      { quietFall with
        frame := 38,
        bird := { x := 200, y := 15119 / 50, w := 44, h := 32, vy := 119 / 50, angle := 119 / 625,
                  color := 4 },
        bgScroll := 32 / 25, groundScroll := -24 / 5 } := by
  have h1 : loopBeforeForEach quietFall 0 =
      { quietFall with
        bird := { x := 200, y := 15119 / 50, w := 44, h := 32, vy := 119 / 50, angle := 119 / 625,
                  color := 4 },
        bgScroll := 32 / 25, groundScroll := -24 / 5 } := by
    simp [quietFall, loopBeforeForEach, spawn, ceilingCheck, groundCheck, integrate, GRAVITY,
      BASE_SPD, PIPE_INT]
    norm_num
  have hl : loop quietFall 0 0 = retire (loopBeforeRetire quietFall 0) := rfl
  rw [hl]
  simp only [loopBeforeRetire, h1]
  simp [retire, forEachPipe, quietFall]

/-- C9, amended: on a playing tick with lives left, no ground or ceiling
contact and no hit taking effect (no life lost), the velocity after the tick
is the previous velocity plus gravity `0.38`, and the position after the tick
is the previous position plus the velocity after the tick (previous velocity
plus gravity), in exact rational arithmetic. -/
theorem tick_integrates_velocity_then_position (g : Game) (rnd osc : ℚ)
    (hs : g.state = Mode.playing) (hl : 0 < g.lives)
    (hground : ¬ groundContact g) (hceil : ¬ ceilingContact g)
    (hnohit : (loop g rnd osc).lives = g.lives) :
    (loop g rnd osc).bird.vy = g.bird.vy + GRAVITY ∧
    (loop g rnd osc).bird.y = g.bird.y + (loop g rnd osc).bird.vy ∧
    (loop g rnd osc).bird.y = g.bird.y + g.bird.vy + GRAVITY ∧
    GRAVITY = 38 / 100 := by
  have _ := hl
  obtain ⟨hy, hv⟩ := loop_free_flight g rnd osc hs hground hceil hnohit
  refine ⟨hv, ?_, ?_, rfl⟩
  · rw [hy, hv]
  · rw [hy]
    ring

/-- C9, amended, at a concrete input: `quietFall` moves from 300 with
velocity 2 to 302.38 with velocity 2.38. -/
theorem tick_integrates_velocity_then_position_witness :
    (loop quietFall 0 0).bird.vy = quietFall.bird.vy + GRAVITY ∧
    (loop quietFall 0 0).bird.y = quietFall.bird.y + (loop quietFall 0 0).bird.vy :=
  ⟨(tick_integrates_velocity_then_position quietFall 0 0 rfl (by decide)
      (by norm_num [groundContact, quietFall, GRAVITY])
      (by norm_num [ceilingContact, quietFall, GRAVITY])
      (by rw [loop_quietFall])).1,
   (tick_integrates_velocity_then_position quietFall 0 0 rfl (by decide)
      (by norm_num [groundContact, quietFall, GRAVITY])
      (by norm_num [ceilingContact, quietFall, GRAVITY])
      (by rw [loop_quietFall])).2.1⟩

/-- C9 as stated fails: `quietFall` is playing with 3 lives, the tick has no
ground contact, no ceiling contact and no hit, yet the position after the
tick, 302.38, is not the previous position plus the previous velocity, 302. -/
theorem position_is_not_previous_plus_previous_velocity :
    quietFall.state = Mode.playing ∧ 0 < quietFall.lives ∧
    ¬ groundContact quietFall ∧ ¬ ceilingContact quietFall ∧
    (loop quietFall 0 0).lives = quietFall.lives ∧
    (loop quietFall 0 0).pipes = quietFall.pipes ∧
    (loop quietFall 0 0).bird.y ≠ quietFall.bird.y + quietFall.bird.vy := by
  refine ⟨rfl, by decide, ?_, ?_, ?_, ?_, ?_⟩
  · norm_num [groundContact, quietFall, GRAVITY]
  · norm_num [ceilingContact, quietFall, GRAVITY]
  · rw [loop_quietFall]
  · rw [loop_quietFall]
  · rw [loop_quietFall]
    norm_num [quietFall]

/-! ## Ground contact -/

/-- The scoring block adds one to the score and leaves lives and cooldown. -/
theorem scorePass_session (g : Game) :
    (scorePass g).hitCooldown = g.hitCooldown ∧
    (scorePass g).lives = g.lives ∧
    (scorePass g).score = g.score + 1 := by
  unfold scorePass
  simp only []
  split_ifs <;> exact ⟨rfl, rfl, rfl⟩

/-- The ceiling clamp and the spawn leave the session counters alone. -/
theorem spawn_ceilingCheck_session (g : Game) (rnd : ℚ) :
    (spawn (ceilingCheck g) rnd).hitCooldown = g.hitCooldown ∧
    (spawn (ceilingCheck g) rnd).lives = g.lives ∧
    (spawn (ceilingCheck g) rnd).score = g.score ∧
    (spawn (ceilingCheck g) rnd).state = g.state := by
  unfold spawn ceilingCheck
  split_ifs <;> exact ⟨rfl, rfl, rfl, rfl⟩

/-- A playing tick with ground contact, god mode off and no cooldown active
removes exactly one life; when nothing scores on the tick the mode afterwards
is `gameover_anim` if that was the last life and `playing` otherwise. -/
theorem loop_ground_hit (g : Game) (rnd osc : ℚ) (hs : g.state = Mode.playing)
    (hg : g.godMode = false) (hc : g.hitCooldown = false) (hk : groundContact g)
    (hn : (loop g rnd osc).score = g.score) :
    (loop g rnd osc).lives = g.lives - 1 ∧
    (loop g rnd osc).state = if g.lives - 1 ≤ 0 then Mode.gameover_anim else Mode.playing := by
  have hloop : loop g rnd osc = retire (loopBeforeRetire g rnd) := by
    simp [loop, hs]
  rw [hloop] at hn ⊢
  -- the state right after the ground check
  have hb : ∃ b : Game, groundCheck (integrate g (BASE_SPD * g.speedMult)) = b ∧
      b.hitCooldown = true ∧ b.lives = g.lives - 1 ∧ b.score = g.score ∧
      b.state = if g.lives - 1 ≤ 0 then Mode.gameover_anim else Mode.playing := by
    refine ⟨_, rfl, ?_⟩
    have hk' : (integrate g (BASE_SPD * g.speedMult)).bird.y +
        (integrate g (BASE_SPD * g.speedMult)).bird.h ≥ (integrate g (BASE_SPD * g.speedMult)).H - 60 := hk
    unfold groundCheck
    rw [if_pos hk']
    by_cases hl : g.lives - 1 ≤ 0
    · simp [handleHit, integrate, hg, hc, hl]
    · simp [handleHit, integrate, hg, hc, hl, hs]
  obtain ⟨b, hbe, hb1, hb2, hb3, hb4⟩ := hb
  have hd : ∃ d : Game, loopBeforeForEach g rnd = d ∧
      d.hitCooldown = true ∧ d.lives = g.lives - 1 ∧ d.score = g.score ∧
      d.state = if g.lives - 1 ≤ 0 then Mode.gameover_anim else Mode.playing := by
    refine ⟨_, rfl, ?_⟩
    unfold loopBeforeForEach
    rw [hbe]
    obtain ⟨e1, e2, e3, e4⟩ := spawn_ceilingCheck_session b rnd
    rw [e1, e2, e3, e4]
    exact ⟨hb1, hb2, hb3, hb4⟩
  obtain ⟨d, hde, hd1, hd2, hd3, hd4⟩ := hd
  have key := forEachPipe_preserves
    (fun a => a.hitCooldown = true ∧ a.lives = g.lives - 1 ∧
      ((a.state = (if g.lives - 1 ≤ 0 then Mode.gameover_anim else Mode.playing) ∧ a.score = g.score) ∨
        g.score < a.score))
    (by
      intro a ha
      rw [handleHit_of_cooldown a ha.1]
      exact ha)
    (by
      intro a ha
      obtain ⟨ha1, ha2, ha3⟩ := ha
      have hsc : g.score < a.score + 1 := by
        rcases ha3 with ⟨-, h⟩ | h <;> omega
      obtain ⟨e1, e2, e3⟩ := scorePass_session a
      exact ⟨e1.trans ha1, e2.trans ha2, Or.inr (by rw [e3]; exact hsc)⟩)
    (BASE_SPD * g.speedMult) d.pipes d ⟨hd1, hd2, Or.inl ⟨hd4, hd3⟩⟩
  have hfin : retire (loopBeforeRetire g rnd) =
      retire { (forEachPipe (BASE_SPD * g.speedMult) d d.pipes).1 with
        pipes := if (forEachPipe (BASE_SPD * g.speedMult) d d.pipes).2.2 = true
          then (forEachPipe (BASE_SPD * g.speedMult) d d.pipes).1.pipes
          else (forEachPipe (BASE_SPD * g.speedMult) d d.pipes).2.1 } := by
    simp only [loopBeforeRetire, hde]
  rw [hfin] at hn ⊢
  obtain ⟨-, k2, k3⟩ := key
  refine ⟨k2, ?_⟩
  rcases k3 with ⟨k, -⟩ | k
  · exact k
  · exfalso
    have hn' : (forEachPipe (BASE_SPD * g.speedMult) d d.pipes).1.score = g.score := hn
    omega

/-- Events other than `init` and `bootGame` leave a dying or dead session
dying or dead, with the lives it has. -/
theorem step_dying_or_dead (g : Game) (e : Event) (he : e.isReset = false)
    (h : g.state = Mode.gameover_anim ∨ g.state = Mode.dead) :
    ((step g e).state = Mode.gameover_anim ∨ (step g e).state = Mode.dead) ∧
    (step g e).lives = g.lives := by
  cases e with
  | tick rnd osc =>
    have : loop g rnd osc = g := by
      rcases h with h | h <;> simp [loop, h]
    show ((loop g rnd osc).state = _ ∨ (loop g rnd osc).state = _) ∧ (loop g rnd osc).lives = _
    rw [this]
    exact ⟨h, rfl⟩
  | input onUi =>
    have : onInput g onUi = g := by
      rcases h with h | h <;> simp [onInput, h]
    show ((onInput g onUi).state = _ ∨ (onInput g onUi).state = _) ∧ (onInput g onUi).lives = _
    rw [this]
    exact ⟨h, rfl⟩
  | reset fromState => exact absurd he (by simp [Event.isReset])
  | cooldownExpire => exact ⟨h, rfl⟩
  | deathTimer => exact ⟨Or.inr rfl, rfl⟩
  | resized w h' => exact ⟨h, rfl⟩
  | toggleGod => exact ⟨h, rfl⟩
  | reboot bestScore w h' => exact absurd he (by simp [Event.isReset])

theorem run_dying_or_dead (es : List Event) (g : Game)
    (hes : ∀ e ∈ es, e.isReset = false)
    (h : g.state = Mode.gameover_anim ∨ g.state = Mode.dead) :
    ((run g es).state = Mode.gameover_anim ∨ (run g es).state = Mode.dead) ∧
    (run g es).lives = g.lives := by
  induction es generalizing g with
  | nil => exact ⟨h, rfl⟩
  | cons e rest ih =>
    have h1 := step_dying_or_dead g e (hes e (List.mem_cons_self e rest)) h
    have h2 := ih (step g e) (fun e' he' => hes e' (List.mem_cons_of_mem e he')) h1.1
    exact ⟨h2.1, h2.2.trans h1.2⟩

/-- Events other than `init` and `bootGame` leave a dead session dead. -/
theorem run_dead (es : List Event) (g : Game)
    (hes : ∀ e ∈ es, e.isReset = false) (h : g.state = Mode.dead) :
    (run g es).state = Mode.dead := by
  induction es generalizing g with
  | nil => exact h
  | cons e rest ih =>
    apply ih (step g e) (fun e' he' => hes e' (List.mem_cons_of_mem e he'))
    have he := hes e (List.mem_cons_self e rest)
    cases e with
    | tick rnd osc => simp [step, loop, h]
    | input onUi => cases onUi <;> simp [step, onInput, h]
    | reset fromState => exact absurd he (by simp [Event.isReset])
    | cooldownExpire => exact h
    | deathTimer => rfl
    | resized w h' => exact h
    | toggleGod => exact h
    | reboot bestScore w h' => exact absurd he (by simp [Event.isReset])

/-- C4: from a playing state with 3 lives, god mode off, three ticks with
ground contact and no scoring on them, each starting with the lives and mode
the previous one left and with the hit cooldown expired, take the lives
3 -> 2 -> 1 -> 0. The first two leave the mode playing; the third leaves it
`gameover_anim` (dying) at once, the death timer (`showDead`) then makes it
`dead` with 0 lives, and no sequence of events without an explicit reset
brings the session back to playing. -/
theorem three_ground_contacts_end_session (g1 g2 g3 : Game) (r1 o1 r2 o2 r3 o3 : ℚ)
    (hs1 : g1.state = Mode.playing) (hl1 : g1.lives = 3)
    (hg1 : g1.godMode = false) (hc1 : g1.hitCooldown = false)
    (hk1 : groundContact g1) (hn1 : (loop g1 r1 o1).score = g1.score)
    (hs2 : g2.state = (loop g1 r1 o1).state) (hl2 : g2.lives = (loop g1 r1 o1).lives)
    (hg2 : g2.godMode = false) (hc2 : g2.hitCooldown = false)
    (hk2 : groundContact g2) (hn2 : (loop g2 r2 o2).score = g2.score)
    (hs3 : g3.state = (loop g2 r2 o2).state) (hl3 : g3.lives = (loop g2 r2 o2).lives)
    (hg3 : g3.godMode = false) (hc3 : g3.hitCooldown = false)
    (hk3 : groundContact g3) (hn3 : (loop g3 r3 o3).score = g3.score) :
    (loop g1 r1 o1).lives = 2 ∧ (loop g1 r1 o1).state = Mode.playing ∧
    (loop g2 r2 o2).lives = 1 ∧ (loop g2 r2 o2).state = Mode.playing ∧
    (loop g3 r3 o3).lives = 0 ∧ (loop g3 r3 o3).state = Mode.gameover_anim ∧
    (showDead (loop g3 r3 o3)).state = Mode.dead ∧ (showDead (loop g3 r3 o3)).lives = 0 ∧
    ∀ es : List Event, (∀ e ∈ es, e.isReset = false) →
      (run (loop g3 r3 o3) es).state ≠ Mode.playing ∧
      (run (loop g3 r3 o3) es).lives = 0 ∧
      (run (showDead (loop g3 r3 o3)) es).state = Mode.dead ∧
      (run (showDead (loop g3 r3 o3)) es).lives = 0 := by
  obtain ⟨a1, a2⟩ := loop_ground_hit g1 r1 o1 hs1 hg1 hc1 hk1 hn1
  rw [hl1] at a1 a2
  have a1' : (loop g1 r1 o1).lives = 2 := by rw [a1]; rfl
  have a2' : (loop g1 r1 o1).state = Mode.playing := by rw [a2]; rfl
  rw [a2'] at hs2
  rw [a1'] at hl2
  obtain ⟨b1, b2⟩ := loop_ground_hit g2 r2 o2 hs2 hg2 hc2 hk2 hn2
  rw [hl2] at b1 b2
  have b1' : (loop g2 r2 o2).lives = 1 := by rw [b1]; rfl
  have b2' : (loop g2 r2 o2).state = Mode.playing := by rw [b2]; rfl
  rw [b2'] at hs3
  rw [b1'] at hl3
  obtain ⟨c1, c2⟩ := loop_ground_hit g3 r3 o3 hs3 hg3 hc3 hk3 hn3
  rw [hl3] at c1 c2
  have c1' : (loop g3 r3 o3).lives = 0 := by rw [c1]; rfl
  have c2' : (loop g3 r3 o3).state = Mode.gameover_anim := by rw [c2]; rfl
  refine ⟨a1', a2', b1', b2', c1', c2', rfl, c1', ?_⟩
  intro es hes
  have d1 := run_dying_or_dead es (loop g3 r3 o3) hes (Or.inl c2')
  have d2 := run_dying_or_dead es (showDead (loop g3 r3 o3)) hes (Or.inr rfl)
  refine ⟨?_, ?_, run_dead es _ hes rfl, ?_⟩
  · rcases d1.1 with h | h <;> rw [h] <;> decide
  · rw [d1.2]
    exact c1'
  · rw [d2.2]
    exact c1'

/-! ### Three ground contacts on a low viewport, evaluated -/

theorem lowStart_fresh : init (resize loaded 1000 100) "play" = lowStart := by
  simp [init, resize, loaded, lowStart]
  norm_num

theorem loop_lowStart : loop lowStart 0 0 = lowAfter1 := by
  have h1 : loopBeforeForEach lowStart 0 =
      { lowAfter1 with frame := 0, pipes := [{ x := 1000, topH := 50, passed := false }] } := by
    simp [lowStart, lowAfter1, loopBeforeForEach, spawn, spawnMargin, spawnMaxT, ceilingCheck,
      groundCheck, integrate, handleHit, GRAVITY, BASE_SPD, PIPE_INT]
    norm_num
  have h2 : pipeBody (BASE_SPD * lowStart.speedMult)
      { lowAfter1 with frame := 0, pipes := [{ x := 1000, topH := 50, passed := false }] }
      { x := 1000, topH := 50, passed := false } =
      ({ lowAfter1 with frame := 0, pipes := [{ x := 1000, topH := 50, passed := false }] },
       { x := 4984 / 5, topH := 50, passed := false }, false) := by
    simp [pipeBody, checkCollision, handleHit, handleHitRebinds, lowAfter1, lowStart, BASE_SPD, PIPE_W]
    norm_num
  have hl : loop lowStart 0 0 = retire (loopBeforeRetire lowStart 0) := rfl
  rw [hl]
  simp only [loopBeforeRetire, h1, forEachPipe, h2]
  simp [retire, keepPipe, PIPE_W, lowAfter1, lowStart]
  norm_num

theorem loop_lowAfter1 : loop (step lowAfter1 Event.cooldownExpire) 0 0 = lowAfter2 := by
  have h1 : loopBeforeForEach (step lowAfter1 Event.cooldownExpire) 0 =
      { lowAfter2 with frame := 0, pipes := [{ x := 1000, topH := 50, passed := false }] } := by
    simp [step, lowStart, lowAfter1, lowAfter2, loopBeforeForEach, spawn, spawnMargin, spawnMaxT,
      ceilingCheck, groundCheck, integrate, handleHit, GRAVITY, BASE_SPD, PIPE_INT]
    norm_num
  have h2 : pipeBody (BASE_SPD * (step lowAfter1 Event.cooldownExpire).speedMult)
      { lowAfter2 with frame := 0, pipes := [{ x := 1000, topH := 50, passed := false }] }
      { x := 1000, topH := 50, passed := false } =
      ({ lowAfter2 with frame := 0, pipes := [{ x := 1000, topH := 50, passed := false }] },
       { x := 4984 / 5, topH := 50, passed := false }, false) := by
    simp [step, pipeBody, checkCollision, handleHit, handleHitRebinds, lowAfter2, lowAfter1, lowStart,
      BASE_SPD, PIPE_W]
    norm_num
  have hl : loop (step lowAfter1 Event.cooldownExpire) 0 0 =
      retire (loopBeforeRetire (step lowAfter1 Event.cooldownExpire) 0) := rfl
  rw [hl]
  simp only [loopBeforeRetire, h1, forEachPipe, h2]
  simp [retire, keepPipe, PIPE_W, lowAfter2, lowAfter1, lowStart]
  norm_num

theorem loop_lowAfter2 : loop (step lowAfter2 Event.cooldownExpire) 0 0 = lowAfter3 := by
  have h1 : loopBeforeForEach (step lowAfter2 Event.cooldownExpire) 0 =
      { lowAfter3 with frame := 1, pipes := [{ x := 4984 / 5, topH := 50, passed := false }] } := by
    simp [step, lowStart, lowAfter1, lowAfter2, lowAfter3, loopBeforeForEach, spawn, spawnMargin,
      spawnMaxT, ceilingCheck, groundCheck, integrate, handleHit, GRAVITY, BASE_SPD, PIPE_INT]
    norm_num
  have h2 : pipeBody (BASE_SPD * (step lowAfter2 Event.cooldownExpire).speedMult)
      { lowAfter3 with frame := 1, pipes := [{ x := 4984 / 5, topH := 50, passed := false }] }
      { x := 4984 / 5, topH := 50, passed := false } =
      ({ lowAfter3 with frame := 1, pipes := [{ x := 4984 / 5, topH := 50, passed := false }] },
       { x := 4968 / 5, topH := 50, passed := false }, false) := by
    simp [step, pipeBody, checkCollision, handleHit, handleHitRebinds, lowAfter3, lowAfter2, lowAfter1,
      lowStart, BASE_SPD, PIPE_W]
    norm_num
  have hl : loop (step lowAfter2 Event.cooldownExpire) 0 0 =
      retire (loopBeforeRetire (step lowAfter2 Event.cooldownExpire) 0) := rfl
  rw [hl]
  simp only [loopBeforeRetire, h1, forEachPipe, h2]
  simp [retire, keepPipe, PIPE_W, lowAfter3, lowAfter2, lowAfter1, lowStart]
  norm_num

/-- C4 at a concrete run: on a viewport of height 100 a fresh session takes
a ground contact on every tick; tick, cooldown expiry, tick, cooldown expiry,
tick, death timer ends dead with 0 lives. -/
theorem three_ground_contacts_end_session_witness :
    (loop lowStart 0 0).lives = 2 ∧
    (loop (step lowAfter1 Event.cooldownExpire) 0 0).lives = 1 ∧
    (loop (step lowAfter2 Event.cooldownExpire) 0 0).lives = 0 ∧
    (loop (step lowAfter2 Event.cooldownExpire) 0 0).state = Mode.gameover_anim ∧
    (step (loop (step lowAfter2 Event.cooldownExpire) 0 0) Event.deathTimer).state = Mode.dead :=
  have h := three_ground_contacts_end_session lowStart (step lowAfter1 Event.cooldownExpire)
    (step lowAfter2 Event.cooldownExpire) 0 0 0 0 0 0
    rfl rfl rfl rfl
    (by norm_num [groundContact, lowStart, GRAVITY])
    (by rw [loop_lowStart]; rfl)
    (by rw [loop_lowStart]; rfl) (by rw [loop_lowStart]; rfl) rfl rfl
    (by norm_num [groundContact, step, lowAfter1, lowStart, GRAVITY])
    (by rw [loop_lowAfter1]; rfl)
    (by rw [loop_lowAfter1]; rfl) (by rw [loop_lowAfter1]; rfl) rfl rfl
    (by norm_num [groundContact, step, lowAfter2, lowAfter1, lowStart, GRAVITY])
    (by rw [loop_lowAfter2]; rfl)
  ⟨h.1, h.2.2.1, h.2.2.2.2.1, h.2.2.2.2.2.1, h.2.2.2.2.2.2.1⟩

/-! ## The tick that reaches the win threshold -/

theorem winThenCrash_beforeForEach : loopBeforeForEach winThenCrash 0 = winThenCrashFlying := by
  simp [winThenCrash, winThenCrashFlying, loopBeforeForEach, spawn, ceilingCheck, groundCheck,
    integrate, GRAVITY, BASE_SPD, PIPE_INT]
  norm_num

theorem winThenCrash_first :
    pipeBody (BASE_SPD * winThenCrash.speedMult) winThenCrashFlying
        { x := 116, topH := 100, passed := false } =
      (winThenCrashWon, { x := 564 / 5, topH := 100, passed := true }, false) := by
  have hc : checkCollision winThenCrashFlying.bird winThenCrashFlying.pipeGap
      { x := 116 - BASE_SPD * winThenCrash.speedMult, topH := 100, passed := false } = false := by
    simp [checkCollision, PIPE_W, BASE_SPD, winThenCrashFlying, winThenCrash]
    norm_num
  simp only [pipeBody, hc]
  simp [winThenCrashWon, winThenCrashFlying, winThenCrash, BASE_SPD, PIPE_W, WIN_SCORE,
    BIRD_COLORS_length]
  norm_num

theorem winThenCrash_second :
    pipeBody (BASE_SPD * winThenCrash.speedMult) winThenCrashWon
        { x := 218, topH := 230, passed := false } =
      (winThenCrashDying, { x := 1074 / 5, topH := 230, passed := false }, false) := by
  have hc : checkCollision winThenCrashWon.bird winThenCrashWon.pipeGap
      { x := 218 - BASE_SPD * winThenCrash.speedMult, topH := 230, passed := false } = true := by
    simp [checkCollision, PIPE_W, BASE_SPD, winThenCrashWon, winThenCrashFlying, winThenCrash]
    norm_num
  have hh : handleHit winThenCrashWon = winThenCrashDying := by
    simp [handleHit, winThenCrashDying, winThenCrashWon, winThenCrashFlying, winThenCrash]
  simp only [pipeBody, hc, hh]
  simp [handleHitRebinds, winThenCrashDying, winThenCrashWon, winThenCrashFlying, winThenCrash,
    BASE_SPD, PIPE_W]
  norm_num

theorem winThenCrash_third :
    pipeBody (BASE_SPD * winThenCrash.speedMult) winThenCrashDying
        { x := 506, topH := 150, passed := false } =
      (winThenCrashDying, { x := 2514 / 5, topH := 150, passed := false }, false) := by
  have hc : checkCollision winThenCrashDying.bird winThenCrashDying.pipeGap
      { x := 506 - BASE_SPD * winThenCrash.speedMult, topH := 150, passed := false } = false := by
    simp [checkCollision, PIPE_W, BASE_SPD, winThenCrashDying, winThenCrashWon, winThenCrashFlying,
      winThenCrash]
    norm_num
  simp only [pipeBody, hc]
  simp [winThenCrashDying, winThenCrashWon, winThenCrashFlying, winThenCrash, BASE_SPD, PIPE_W]
  norm_num

theorem loop_winThenCrash :
    loop winThenCrash 0 0 =
      { winThenCrashDying with
        frame := 1056,
        pipes := [{ x := 564 / 5, topH := 100, passed := true },
                  { x := 1074 / 5, topH := 230, passed := false },
                  { x := 2514 / 5, topH := 150, passed := false }] } := by
  have hp : winThenCrashFlying.pipes =
      [{ x := 116, topH := 100, passed := false }, { x := 218, topH := 230, passed := false },
       { x := 506, topH := 150, passed := false }] := rfl
  have hl : loop winThenCrash 0 0 = retire (loopBeforeRetire winThenCrash 0) := rfl
  rw [hl]
  simp only [loopBeforeRetire, winThenCrash_beforeForEach, hp, forEachPipe, winThenCrash_first,
    winThenCrash_second, winThenCrash_third]
  simp [retire, keepPipe, PIPE_W, winThenCrashDying, winThenCrashWon, winThenCrashFlying,
    winThenCrash]
  norm_num

/-- C5, the code at the failing input `winThenCrash`: the tick starts in
playing, the callback on the first pipe brings the score from 9 to the
threshold 10 and sets the mode `win`, then the callback still runs on the
second pipe, whose collision takes the last life, and at the end of the
tick the mode is `gameover_anim`, not `win`. -/
theorem win_tick_ends_dying_on_winThenCrash :
    winThenCrash.state = Mode.playing ∧ winThenCrash.score = 9 ∧
    (pipeBody (BASE_SPD * winThenCrash.speedMult) (loopBeforeForEach winThenCrash 0)
      { x := 116, topH := 100, passed := false }).1.score = WIN_SCORE ∧
    (pipeBody (BASE_SPD * winThenCrash.speedMult) (loopBeforeForEach winThenCrash 0)
      { x := 116, topH := 100, passed := false }).1.state = Mode.win ∧
    (loop winThenCrash 0 0).score = 10 ∧
    (loop winThenCrash 0 0).lives = 0 ∧
    (loop winThenCrash 0 0).state = Mode.gameover_anim := by
  rw [winThenCrash_beforeForEach, winThenCrash_first, loop_winThenCrash]
  exact ⟨rfl, rfl, rfl, rfl, rfl, rfl, rfl⟩

theorem winWithFollowers_beforeForEach :
    loopBeforeForEach winWithFollowers 0 = winWithFollowersFlying := by
  simp [winWithFollowers, winWithFollowersFlying, loopBeforeForEach, spawn, ceilingCheck,
    groundCheck, integrate, GRAVITY, BASE_SPD, PIPE_INT]
  norm_num

theorem winWithFollowers_first :
    pipeBody (BASE_SPD * winWithFollowers.speedMult) winWithFollowersFlying
        { x := 116, topH := 100, passed := false } =
      (winWithFollowersWon, { x := 564 / 5, topH := 100, passed := true }, false) := by
  have hc : checkCollision winWithFollowersFlying.bird winWithFollowersFlying.pipeGap
      { x := 116 - BASE_SPD * winWithFollowers.speedMult, topH := 100, passed := false } = false := by
    simp [checkCollision, PIPE_W, BASE_SPD, winWithFollowersFlying, winWithFollowers]
    norm_num
  simp only [pipeBody, hc]
  simp [winWithFollowersWon, winWithFollowersFlying, winWithFollowers, BASE_SPD, PIPE_W, WIN_SCORE,
    BIRD_COLORS_length]
  norm_num

theorem winWithFollowers_second :
    pipeBody (BASE_SPD * winWithFollowers.speedMult) winWithFollowersWon
        { x := 404, topH := 200, passed := false } =
      (winWithFollowersWon, { x := 2004 / 5, topH := 200, passed := false }, false) := by
  have hc : checkCollision winWithFollowersWon.bird winWithFollowersWon.pipeGap
      { x := 404 - BASE_SPD * winWithFollowers.speedMult, topH := 200, passed := false } = false := by
    simp [checkCollision, PIPE_W, BASE_SPD, winWithFollowersWon, winWithFollowersFlying,
      winWithFollowers]
    norm_num
  simp only [pipeBody, hc]
  simp [winWithFollowersWon, winWithFollowersFlying, winWithFollowers, BASE_SPD, PIPE_W]
  norm_num

theorem winWithFollowers_third :
    pipeBody (BASE_SPD * winWithFollowers.speedMult) winWithFollowersWon
        { x := 692, topH := 150, passed := false } =
      (winWithFollowersWon, { x := 3444 / 5, topH := 150, passed := false }, false) := by
  have hc : checkCollision winWithFollowersWon.bird winWithFollowersWon.pipeGap
      { x := 692 - BASE_SPD * winWithFollowers.speedMult, topH := 150, passed := false } = false := by
    simp [checkCollision, PIPE_W, BASE_SPD, winWithFollowersWon, winWithFollowersFlying,
      winWithFollowers]
    norm_num
  simp only [pipeBody, hc]
  simp [winWithFollowersWon, winWithFollowersFlying, winWithFollowers, BASE_SPD, PIPE_W]
  norm_num

theorem loop_winWithFollowers :
    loop winWithFollowers 0 0 =
      { winWithFollowersWon with
        frame := 1056,
        pipes := [{ x := 564 / 5, topH := 100, passed := true },
                  { x := 2004 / 5, topH := 200, passed := false },
                  { x := 3444 / 5, topH := 150, passed := false }] } := by
  have hp : winWithFollowersFlying.pipes =
      [{ x := 116, topH := 100, passed := false }, { x := 404, topH := 200, passed := false },
       { x := 692, topH := 150, passed := false }] := rfl
  have hl : loop winWithFollowers 0 0 = retire (loopBeforeRetire winWithFollowers 0) := rfl
  rw [hl]
  simp only [loopBeforeRetire, winWithFollowers_beforeForEach, hp, forEachPipe,
    winWithFollowers_first, winWithFollowers_second, winWithFollowers_third]
  simp [retire, keepPipe, PIPE_W, winWithFollowersWon, winWithFollowersFlying, winWithFollowers]
  norm_num

/-- C6, the code at the failing input `winWithFollowers`: the first pipe
brings the score to the threshold 10 and the mode to `win`, and on the same
tick the two pipes after it in the list are still moved left by 3.2 (404 to
400.8 and 692 to 688.8) and the frame counter still advances: the `return`
after `setState('win')` ends the callback of that one pipe only. -/
theorem win_tick_still_moves_later_pipes_on_winWithFollowers :
    winWithFollowers.state = Mode.playing ∧
    winWithFollowers.pipes =
      [{ x := 116, topH := 100, passed := false }, { x := 404, topH := 200, passed := false },
       { x := 692, topH := 150, passed := false }] ∧
    (pipeBody (BASE_SPD * winWithFollowers.speedMult) (loopBeforeForEach winWithFollowers 0)
      { x := 116, topH := 100, passed := false }).1.score = WIN_SCORE ∧
    (loop winWithFollowers 0 0).state = Mode.win ∧
    (loop winWithFollowers 0 0).pipes =
      [{ x := 564 / 5, topH := 100, passed := true }, { x := 2004 / 5, topH := 200, passed := false },
       { x := 3444 / 5, topH := 150, passed := false }] ∧
    (loop winWithFollowers 0 0).frame = winWithFollowers.frame + 1 := by
  rw [winWithFollowers_beforeForEach, winWithFollowers_first, loop_winWithFollowers]
  exact ⟨rfl, rfl, rfl, rfl, rfl, rfl⟩

/-! ## Spawn band -/

/-- The pipe pushed by `spawn` on the cadence. -/
theorem spawn_pipes (g : Game) (rnd : ℚ) (hf : g.frame % PIPE_INT = 0) :
    (spawn g rnd).pipes =
      g.pipes ++ [{ x := g.W,
                    topH := spawnMargin g.H + rnd * (spawnMaxT g.H g.pipeGap - spawnMargin g.H),
                    passed := false }] := by
  unfold spawn
  rw [if_pos hf]

theorem spawnMaxT_ge (h gap : ℚ) : spawnMargin h + 20 ≤ spawnMaxT h gap := by
  unfold spawnMaxT
  exact le_max_left _ _

/-- C12, amended: for every viewport height `H >= 330`, with the gap
`resize` sets for that height, and every draw `0 <= rnd < 1`, the pipe
pushed on the spawn cadence has `margin <= topH <= H - margin - gap - margin`,
so the whole gap `[topH, topH + gap]` lies at least `margin` from the top and
from the bottom of the viewport (margin 80 and gap 200 when `H >= 550`,
margin 50 and gap 160 when `H < 550`). -/
theorem spawn_gap_fits_viewport (g : Game) (rnd : ℚ) (hf : g.frame % PIPE_INT = 0)
    (h0 : 0 ≤ rnd) (h1 : rnd < 1)
    (hgap : g.pipeGap = if g.H < 550 then 160 else 200) (hH : 330 ≤ g.H) :
    (550 ≤ g.H → spawnMargin g.H = 80 ∧ g.pipeGap = 200) ∧
    (g.H < 550 → spawnMargin g.H = 50 ∧ g.pipeGap = 160) ∧
    ∃ topH : ℚ,
      (spawn g rnd).pipes = g.pipes ++ [{ x := g.W, topH := topH, passed := false }] ∧
      spawnMargin g.H ≤ topH ∧
      topH ≤ g.H - spawnMargin g.H - g.pipeGap - spawnMargin g.H ∧
      topH + g.pipeGap ≤ g.H - spawnMargin g.H := by
  have hmax : spawnMaxT g.H g.pipeGap = g.H - spawnMargin g.H - g.pipeGap - spawnMargin g.H := by
    unfold spawnMaxT
    apply max_eq_right
    rw [hgap]
    unfold spawnMargin
    split_ifs <;> linarith
  have hge := spawnMaxT_ge g.H g.pipeGap
  have hlo : spawnMargin g.H ≤
      spawnMargin g.H + rnd * (spawnMaxT g.H g.pipeGap - spawnMargin g.H) := by
    have : 0 ≤ rnd * (spawnMaxT g.H g.pipeGap - spawnMargin g.H) :=
      mul_nonneg h0 (by linarith)
    linarith
  have hhi : spawnMargin g.H + rnd * (spawnMaxT g.H g.pipeGap - spawnMargin g.H) ≤
      spawnMaxT g.H g.pipeGap := by
    have hpos : 0 ≤ spawnMaxT g.H g.pipeGap - spawnMargin g.H := by linarith
    have : rnd * (spawnMaxT g.H g.pipeGap - spawnMargin g.H) ≤
        1 * (spawnMaxT g.H g.pipeGap - spawnMargin g.H) :=
      mul_le_mul_of_nonneg_right (le_of_lt h1) hpos
    linarith
  refine ⟨?_, ?_, _, spawn_pipes g rnd hf, hlo, ?_, ?_⟩
  · intro h
    have hn : ¬ g.H < 550 := not_lt.mpr h
    rw [hgap]
    simp [spawnMargin, hn]
  · intro h
    rw [hgap]
    simp [spawnMargin, h]
  · rw [← hmax]
    exact hhi
  · have hm0 : 0 ≤ spawnMargin g.H := by
      unfold spawnMargin
      split_ifs <;> norm_num
    linarith

/-- C12, amended, at a concrete input: the first spawn of `tallStart`. -/
theorem spawn_gap_fits_viewport_witness :
    spawnMargin tallStart.H = 80 ∧ tallStart.pipeGap = 200 :=
  (spawn_gap_fits_viewport tallStart (1 / 2) rfl (by norm_num) (by norm_num)
    (by norm_num [tallStart]) (by norm_num [tallStart])).1 (by norm_num [tallStart])

/-- C12 as stated fails on a short viewport: `shortStart` (height 300, gap
160, margin 50) spawns on its first tick, and with the draw 0 the pipe gets
`topH = 50`, above the upper end `300 - 50 - 160 - 50 = 40` of the band; its
gap ends at 210, only 30 above the ground line 240. -/
theorem spawn_leaves_band_on_shortStart :
    shortStart.frame % PIPE_INT = 0 ∧
    shortStart.pipeGap = (if shortStart.H < 550 then 160 else 200) ∧
    spawnMargin shortStart.H = 50 ∧
    (spawn shortStart 0).pipes = [{ x := 640, topH := 50, passed := false }] ∧
    ¬ ((50 : ℚ) ≤ shortStart.H - spawnMargin shortStart.H - shortStart.pipeGap
        - spawnMargin shortStart.H) := by
  have hm : spawnMargin shortStart.H = 50 := by norm_num [spawnMargin, shortStart]
  refine ⟨rfl, by norm_num [shortStart], hm, ?_, ?_⟩
  · rw [spawn_pipes shortStart 0 rfl, hm]
    simp [shortStart]
  · rw [hm]
    norm_num [shortStart]

/-! ## Horizontal rejection -/

/-- C14, amended: with the hitbox 36 wide and the pipe 64 wide, for every
vertical configuration `checkCollision` is false whenever the horizontal
extents are strictly apart, `x + 36 < px` or `x > px + 64`; when they touch
exactly (`x + 36 = px` or `x = px + 64`) the vertical test decides. -/
theorem checkCollision_false_of_strictly_apart (b : Bird) (gap : ℚ) (p : Pipe)
    (hw : b.w = 44) :
    (b.x + 36 < p.x ∨ b.x > p.x + 64 → checkCollision b gap p = false) ∧
    (b.x + 36 = p.x ∨ b.x = p.x + 64 →
      (checkCollision b gap p = true ↔ (b.y < p.topH ∨ b.y + (b.h - 6) > p.topH + gap))) := by
  have h36 : b.w - 8 = 36 := by rw [hw]; norm_num
  constructor
  · intro h
    unfold checkCollision
    simp only [h36, PIPE_W]
    rw [if_pos h]
  · intro h
    have hn : ¬ (b.x + 36 < p.x ∨ b.x > p.x + 64) := by
      rcases h with h | h
      · rw [h]
        intro hc
        rcases hc with hc | hc
        · exact lt_irrefl _ hc
        · linarith
      · rw [h]
        intro hc
        rcases hc with hc | hc
        · linarith
        · exact lt_irrefl _ hc
    unfold checkCollision
    simp only [h36, PIPE_W]
    rw [if_neg hn]
    simp only [decide_eq_true_eq]

/-- C14, amended, at a concrete input: the hitbox ends one unit left of the
pipe and lies above its gap. -/
theorem checkCollision_false_of_strictly_apart_witness :
    checkCollision { x := 163, y := 50, w := 44, h := 32, vy := 0, angle := 0, color := 0 } 200
      { x := 200, topH := 100, passed := false } = false :=
  (checkCollision_false_of_strictly_apart
    { x := 163, y := 50, w := 44, h := 32, vy := 0, angle := 0, color := 0 } 200
    { x := 200, topH := 100, passed := false } rfl).1 (Or.inl (by norm_num))

/-- C14 as stated fails when the extents touch exactly: the hitbox
`[164, 200]` ends where the pipe `[200, 264]` starts, so `x + 36 <= px`
holds, the bird's top edge 50 is above the gap start 100, and
`checkCollision` is true. -/
theorem checkCollision_true_when_touching :
    ((164 : ℚ) + 36 ≤ 200 ∨ (164 : ℚ) ≥ 200 + 64) ∧
    checkCollision { x := 164, y := 50, w := 44, h := 32, vy := 0, angle := 0, color := 0 } 200
      { x := 200, topH := 100, passed := false } = true := by
  refine ⟨Or.inl (by norm_num), ?_⟩
  simp [checkCollision, PIPE_W]
  norm_num

/-! ## Outside playing -/

/-- C17: outside playing the simulation is frozen. In `start`,
`gameover_anim`, `dead` or `win` a tick leaves the pipe list, score, best,
lives, frame counter and vertical velocity unchanged; in `gameover_anim`,
`dead` or `win` a tick changes nothing at all and neither does `onInput`. -/
theorem frozen_outside_playing (g : Game) (rnd osc : ℚ) (onUi : Bool)
    (hs : g.state ≠ Mode.playing) :
    (loop g rnd osc).pipes = g.pipes ∧
    (loop g rnd osc).score = g.score ∧
    (loop g rnd osc).best = g.best ∧
    (loop g rnd osc).lives = g.lives ∧
    (loop g rnd osc).frame = g.frame ∧
    (loop g rnd osc).bird.vy = g.bird.vy ∧
    (g.state ≠ Mode.start → loop g rnd osc = g ∧ onInput g onUi = g) := by
  cases hm : g.state
  case playing => exact absurd hm hs
  case start =>
    refine ⟨?_, ?_, ?_, ?_, ?_, ?_, fun h => absurd rfl h⟩ <;> simp [loop, hm]
  all_goals
    have hl : loop g rnd osc = g := by simp [loop, hm]
    have hi : onInput g onUi = g := by cases onUi <;> simp [onInput, hm]
    rw [hl]
    exact ⟨rfl, rfl, rfl, rfl, rfl, rfl, fun _ => ⟨rfl, hi⟩⟩

/-- C17 at a concrete input: the dying state `dyingOnGround`. -/
theorem frozen_outside_playing_witness :
    (loop dyingOnGround 0 0).bird.vy = dyingOnGround.bird.vy ∧
    onInput dyingOnGround false = dyingOnGround :=
  ⟨(frozen_outside_playing dyingOnGround 0 0 false (by decide)).2.2.2.2.2.1,
   ((frozen_outside_playing dyingOnGround 0 0 false (by decide)).2.2.2.2.2.2 (by decide)).2⟩

/-! ## The dying state -/

/-- C18, the code at the failing input `dyingOnGround`: the fatal hit on
`lastLifeOnGround` sets the mode `gameover_anim` and the vertical velocity
-5, but a tick in `gameover_anim` changes nothing: the velocity stays -5
(not -5 + 0.38) and the position stays 508 (not 508 - 4.62); input is
ignored. -/
theorem dying_tick_does_not_move_bird_on_dyingOnGround :
    lastLifeOnGround.state = Mode.playing ∧ lastLifeOnGround.lives = 1 ∧
    handleHit lastLifeOnGround = dyingOnGround ∧
    dyingOnGround.state = Mode.gameover_anim ∧ dyingOnGround.bird.vy = -5 ∧
    loop dyingOnGround 0 0 = dyingOnGround ∧
    (loop dyingOnGround 0 0).bird.vy ≠ dyingOnGround.bird.vy + GRAVITY ∧
    (loop dyingOnGround 0 0).bird.y ≠
      dyingOnGround.bird.y + (dyingOnGround.bird.vy + GRAVITY) ∧
    onInput dyingOnGround false = dyingOnGround := by
  have hl : loop dyingOnGround 0 0 = dyingOnGround := rfl
  refine ⟨rfl, rfl, ?_, rfl, rfl, hl, ?_, ?_, rfl⟩
  · simp [handleHit, lastLifeOnGround, dyingOnGround]
  · rw [hl]
    norm_num [dyingOnGround, GRAVITY]
  · rw [hl]
    norm_num [dyingOnGround, GRAVITY]

/-! ## Best score -/

theorem scorePass_score_best (g : Game) :
    (scorePass g).score = g.score + 1 ∧ (scorePass g).best = max g.best (g.score + 1) := by
  unfold scorePass
  simp only []
  split_ifs <;> exact ⟨rfl, rfl⟩

theorem loopBeforeForEach_best (g : Game) (rnd : ℚ) :
    (loopBeforeForEach g rnd).best = g.best := by
  simp only [loopBeforeForEach, spawn, ceilingCheck, groundCheck, integrate]
  split_ifs <;> simp

/-- A relation between score and best that every scoring event keeps is
kept by a whole tick. -/
theorem loop_score_best (Q : Int → Int → Prop)
    (hQ : ∀ s b : Int, Q s b → Q (s + 1) (max b (s + 1)))
    (g : Game) (rnd osc : ℚ) (h : Q g.score g.best) :
    Q (loop g rnd osc).score (loop g rnd osc).best := by
  unfold loop
  cases hs : g.state
  case playing =>
    have h1 : Q (loopBeforeForEach g rnd).score (loopBeforeForEach g rnd).best := by
      rw [loopBeforeForEach_score, loopBeforeForEach_best]
      exact h
    exact forEachPipe_preserves (fun a => Q a.score a.best)
      (fun a ha => by
        show Q (handleHit a).score (handleHit a).best
        rw [handleHit_score, handleHit_best]
        exact ha)
      (fun a ha => by
        show Q (scorePass a).score (scorePass a).best
        rw [(scorePass_score_best a).1, (scorePass_score_best a).2]
        exact hQ _ _ ha)
      (BASE_SPD * g.speedMult) (loopBeforeForEach g rnd).pipes (loopBeforeForEach g rnd) h1
  all_goals exact h

/-- The callback of `forEach` on a pipe that passes: the score grows by one
and the best score becomes the larger of itself and the new score. -/
theorem pipeBody_best_of_passes (spd : ℚ) (g : Game) (p : Pipe)
    (hp : passesNow spd g.bird.x p = true) :
    (pipeBody spd g p).1.score = g.score + 1 ∧
    (pipeBody spd g p).1.best = max g.best (g.score + 1) := by
  rw [pipeBody_fst_eq, if_pos hp]
  obtain ⟨h1, h2⟩ := scorePass_score_best
    (if checkCollision g.bird g.pipeGap { p with x := p.x - spd } = true then handleHit g else g)
  rw [h1, h2]
  split_ifs <;> simp

theorem onInput_score_best (g : Game) (onUi : Bool) :
    (onInput g onUi).score = g.score ∧ (onInput g onUi).best = g.best := by
  unfold onInput
  cases onUi
  · cases hs : g.state <;> exact ⟨rfl, rfl⟩
  · exact ⟨rfl, rfl⟩

/-- No event other than a new `bootGame` lowers the best score. -/
theorem step_best_mono (g : Game) (e : Event) (he : e.isReboot = false) :
    g.best ≤ (step g e).best := by
  cases e with
  | tick rnd osc =>
    exact loop_score_best (fun _ b => g.best ≤ b) (fun s b hb => le_trans hb (le_max_left _ _))
      g rnd osc (le_refl _)
  | input onUi =>
    show g.best ≤ (onInput g onUi).best
    rw [(onInput_score_best g onUi).2]
  | reset fromState => exact le_refl _
  | cooldownExpire => exact le_refl _
  | deathTimer => exact le_refl _
  | resized w h => exact le_refl _
  | toggleGod => exact le_refl _
  | reboot bestScore w h => exact absurd he (by simp [Event.isReboot])

/-- Every event keeps `score <= best` and `0 <= best`, as long as the values
read from storage are not negative. -/
theorem step_score_le_best (g : Game) (e : Event) (he : e.storedNonneg = true)
    (h : g.score ≤ g.best ∧ 0 ≤ g.best) :
    (step g e).score ≤ (step g e).best ∧ 0 ≤ (step g e).best := by
  cases e with
  | tick rnd osc =>
    exact loop_score_best (fun s b => s ≤ b ∧ 0 ≤ b)
      (fun s b hb => ⟨le_max_right _ _, le_trans hb.2 (le_max_left _ _)⟩) g rnd osc h
  | input onUi =>
    show (onInput g onUi).score ≤ (onInput g onUi).best ∧ 0 ≤ (onInput g onUi).best
    rw [(onInput_score_best g onUi).1, (onInput_score_best g onUi).2]
    exact h
  | reset fromState => exact ⟨h.2, h.2⟩
  | cooldownExpire => exact h
  | deathTimer => exact h
  | resized w h' => exact h
  | toggleGod => exact h
  | reboot bestScore w h' =>
    have hb : 0 ≤ bestScore := by
      simpa [Event.storedNonneg] using he
    exact ⟨hb, hb⟩

theorem run_score_le_best (es : List Event) (g : Game)
    (hes : ∀ e ∈ es, e.storedNonneg = true) (h : g.score ≤ g.best ∧ 0 ≤ g.best) :
    (run g es).score ≤ (run g es).best ∧ 0 ≤ (run g es).best := by
  induction es generalizing g with
  | nil => exact h
  | cons e rest ih =>
    exact ih (step g e) (fun e' he' => hes e' (List.mem_cons_of_mem e he'))
      (step_score_le_best g e (hes e (List.mem_cons_self e rest)) h)

/-- C16, amended: at every scoring event (the callback of `forEach` on a pipe that
passes) the score grows by one and the in-memory best score becomes
`max(previous best, new score)`; hence after a tick on which the score grew
the best is `max(best before, score after)`, and otherwise it is unchanged.
In every state reachable from a boot, the stored best scores read by
`bootGame` being non-negative, `score <= best`; and no event other than a
new `bootGame`, which reads the best score anew from storage, lowers the
best score. -/
theorem best_is_running_max (bestScore : Int) (w h : ℚ) (es : List Event)
    (hb : 0 ≤ bestScore) (hes : ∀ e ∈ es, e.storedNonneg = true) :
    (run (bootGame loaded bestScore w h) es).score ≤ (run (bootGame loaded bestScore w h) es).best ∧
    (∀ (spd : ℚ) (a : Game) (p : Pipe), passesNow spd a.bird.x p = true →
      (pipeBody spd a p).1.score = a.score + 1 ∧
      (pipeBody spd a p).1.best = max a.best (a.score + 1)) ∧
    (∀ a : Game, (scorePass a).score = a.score + 1 ∧
      (scorePass a).best = max a.best (a.score + 1)) ∧
    (∀ (a : Game) (rnd osc : ℚ),
      ((loop a rnd osc).score = a.score ∧ (loop a rnd osc).best = a.best) ∨
      (a.score < (loop a rnd osc).score ∧
        (loop a rnd osc).best = max a.best (loop a rnd osc).score)) ∧
    (∀ (a : Game) (e : Event), e.isReboot = false → a.best ≤ (step a e).best) := by
  refine ⟨?_, pipeBody_best_of_passes, scorePass_score_best, ?_, step_best_mono⟩
  · exact (run_score_le_best es _ hes ⟨hb, hb⟩).1
  · intro a rnd osc
    refine loop_score_best
      (fun s b => (s = a.score ∧ b = a.best) ∨ (a.score < s ∧ b = max a.best s)) ?_
      a rnd osc (Or.inl ⟨rfl, rfl⟩)
    intro s b hsb
    right
    rcases hsb with ⟨h1, h2⟩ | ⟨h1, h2⟩
    · rw [h1, h2]
      exact ⟨by omega, rfl⟩
    · refine ⟨by omega, ?_⟩
      rw [h2, max_assoc, max_eq_right (by omega : s ≤ s + 1)]

/-- C16, amended, at the scenario of the specification: after a boot that read the
best score 5 the invariant holds, and from a run that has just equalled the
best score 5 the sixth and the seventh scoring event leave the best score at
6 and then 7, on the spot. -/
theorem best_is_running_max_witness :
    (run (bootGame loaded 5 900 600) [Event.input false, Event.tick 0 0]).score ≤
      (run (bootGame loaded 5 900 600) [Event.input false, Event.tick 0 0]).best ∧
    (scorePass fivePoints).best = 6 ∧
    (scorePass (scorePass fivePoints)).best = 7 :=
  have h := best_is_running_max 5 900 600 [Event.input false, Event.tick 0 0] (by decide)
    (by decide)
  ⟨h.1,
   by rw [(h.2.2.1 fivePoints).2]; rfl,
   by rw [(h.2.2.1 (scorePass fivePoints)).2, (h.2.2.1 fivePoints).2, (h.2.2.1 fivePoints).1]; rfl⟩


/-- C16 as stated fails when `bootGame` runs again (the route guard calls it
on every login): it assigns the stored value to `best`, so after a boot that
read 7 a second boot that reads 5 (another tab has written its own best) is
a reachable state with a lower best score; and a boot that reads a negative
stored value starts with `score = 0 > best`. -/
theorem best_drops_when_bootGame_runs_again :
    Reachable (bootGame loaded 7 900 600) ∧
    Reachable (run (bootGame loaded 7 900 600) [Event.reboot 5 900 600]) ∧
    (bootGame loaded 7 900 600).best = 7 ∧
    (run (bootGame loaded 7 900 600) [Event.reboot 5 900 600]).best = 5 ∧
    Reachable (bootGame loaded (-5) 900 600) ∧
    ¬ ((bootGame loaded (-5) 900 600).score ≤ (bootGame loaded (-5) 900 600).best) := by
  refine ⟨⟨7, 900, 600, [], rfl⟩, ⟨7, 900, 600, [Event.reboot 5 900 600], rfl⟩, rfl, rfl,
    ⟨-5, 900, 600, [], rfl⟩, ?_⟩
  show ¬ ((0 : Int) ≤ -5)
  decide
/-! ## The obstacle stream -/

/-- A call of `handleHit` that leaves the lives alone was ignored. -/
theorem handleHit_eq_of_lives (g : Game) (h : (handleHit g).lives = g.lives) :
    handleHit g = g := by
  rcases handleHit_cases g with he | ⟨-, -, -, he⟩ | ⟨-, -, -, he⟩
  · exact he
  · rw [he] at h
    change g.lives - 1 = g.lives at h
    omega
  · rw [he] at h
    change g.lives - 1 = g.lives at h
    omega

theorem handleHit_lives_le (g : Game) : (handleHit g).lives ≤ g.lives := by
  rcases handleHit_cases g with he | ⟨-, -, -, he⟩ | ⟨-, -, -, he⟩
  · rw [he]
  · rw [he]
    show g.lives - 1 ≤ g.lives
    omega
  · rw [he]
    show g.lives - 1 ≤ g.lives
    omega

theorem pipeBody_lives_le (spd : ℚ) (g : Game) (p : Pipe) :
    (pipeBody spd g p).1.lives ≤ g.lives := by
  rw [pipeBody_lives]
  split_ifs
  · exact handleHit_lives_le g
  · exact le_refl _

theorem forEachPipe_lives_le (spd : ℚ) (arr : List Pipe) (g : Game) :
    (forEachPipe spd g arr).1.lives ≤ g.lives := by
  induction arr generalizing g with
  | nil => exact le_refl _
  | cons p rest ih =>
    simp only [forEachPipe]
    exact le_trans (ih _) (pipeBody_lives_le spd g p)

/-- A callback that leaves the lives alone has not rebound `pipes` and has
left the frame counter alone. -/
theorem pipeBody_of_lives (spd : ℚ) (g : Game) (p : Pipe)
    (h : (pipeBody spd g p).1.lives = g.lives) :
    (pipeBody spd g p).2.2 = false ∧ (pipeBody spd g p).1.frame = g.frame := by
  rw [pipeBody_lives] at h
  have hg : (if checkCollision g.bird g.pipeGap { p with x := p.x - spd } = true
      then handleHit g else g) = g := by
    split_ifs with hc
    · rw [if_pos hc] at h
      exact handleHit_eq_of_lives g h
    · rfl
  constructor
  · rw [pipeBody_rebound]
    cases hc : checkCollision g.bird g.pipeGap { p with x := p.x - spd }
    · rfl
    · rw [if_pos hc] at h
      have hp := handleHit_pipes g
      rw [handleHit_eq_of_lives g h] at hp
      have hl := handleHit_eq_of_lives g h
      cases hr : handleHitRebinds g
      · rfl
      · exfalso
        have hr' := hr
        simp only [handleHitRebinds, Bool.and_eq_true, Bool.not_eq_true',
          decide_eq_false_iff_not] at hr'
        obtain ⟨⟨hgm, hcd⟩, -⟩ := hr'
        have : (handleHit g).hitCooldown = true := by
          simp [handleHit, hgm, hcd]
          split_ifs <;> rfl
        rw [hl, hcd] at this
        exact absurd this (by decide)
  · rw [pipeBody_fst_eq, hg]
    split_ifs
    · unfold scorePass
      simp only []
      split_ifs <;> rfl
    · rfl

theorem forEachPipe_of_lives (spd : ℚ) (arr : List Pipe) (g : Game)
    (h : (forEachPipe spd g arr).1.lives = g.lives) :
    (forEachPipe spd g arr).2.2 = false ∧ (forEachPipe spd g arr).1.frame = g.frame := by
  induction arr generalizing g with
  | nil => exact ⟨rfl, rfl⟩
  | cons p rest ih =>
    simp only [forEachPipe] at h ⊢
    have h1 := forEachPipe_lives_le spd rest (pipeBody spd g p).1
    have h2 := pipeBody_lives_le spd g p
    have e1 : (pipeBody spd g p).1.lives = g.lives := by omega
    have e2 : (forEachPipe spd (pipeBody spd g p).1 rest).1.lives = (pipeBody spd g p).1.lives := by
      omega
    obtain ⟨a1, a2⟩ := pipeBody_of_lives spd g p e1
    obtain ⟨b1, b2⟩ := ih _ e2
    exact ⟨by rw [a1, b1]; rfl, by rw [b2, a2]⟩

theorem loopBeforeForEach_lives_le (g : Game) (rnd : ℚ) :
    (loopBeforeForEach g rnd).lives ≤ g.lives := by
  have h1 : (groundCheck (integrate g (BASE_SPD * g.speedMult))).lives ≤ g.lives := by
    unfold groundCheck
    split_ifs
    · exact handleHit_lives_le _
    · exact le_refl _
  unfold loopBeforeForEach
  rw [(spawn_ceilingCheck_session _ rnd).2.1]
  exact h1

/-- With no life lost before `forEach`, the list `forEach` visits is the
previous list with the spawned pipe appended on the cadence, and the frame
counter and the bird's `x` are untouched. -/
theorem loopBeforeForEach_of_lives (g : Game) (rnd : ℚ)
    (h : (loopBeforeForEach g rnd).lives = g.lives) :
    (loopBeforeForEach g rnd).frame = g.frame ∧
    (loopBeforeForEach g rnd).pipes =
      if g.frame % PIPE_INT = 0 then
        g.pipes ++ [{ x := g.W,
                      topH := spawnMargin g.H + rnd * (spawnMaxT g.H g.pipeGap - spawnMargin g.H),
                      passed := false }]
      else g.pipes := by
  unfold loopBeforeForEach at h ⊢
  rw [(spawn_ceilingCheck_session _ rnd).2.1] at h
  have hg : ∃ b : Game, groundCheck (integrate g (BASE_SPD * g.speedMult)) = b ∧
      b.frame = g.frame ∧ b.pipes = g.pipes ∧ b.W = g.W ∧ b.H = g.H ∧ b.pipeGap = g.pipeGap := by
    refine ⟨_, rfl, ?_⟩
    unfold groundCheck at h ⊢
    split_ifs with hc
    · rw [if_pos hc] at h
      rw [handleHit_eq_of_lives _ h]
      exact ⟨rfl, rfl, rfl, rfl, rfl⟩
    · exact ⟨rfl, rfl, rfl, rfl, rfl⟩
  obtain ⟨b, hb, b1, b2, b3, b4, b5⟩ := hg
  rw [hb]
  have hc : ∃ c : Game, ceilingCheck b = c ∧
      c.frame = g.frame ∧ c.pipes = g.pipes ∧ c.W = g.W ∧ c.H = g.H ∧ c.pipeGap = g.pipeGap := by
    refine ⟨_, rfl, ?_⟩
    unfold ceilingCheck
    split_ifs <;> exact ⟨b1, b2, b3, b4, b5⟩
  obtain ⟨c, hc, c1, c2, c3, c4, c5⟩ := hc
  rw [hc]
  unfold spawn
  by_cases hf : g.frame % PIPE_INT = 0
  · have hf' : c.frame % PIPE_INT = 0 := by rw [c1]; exact hf
    rw [if_pos hf', if_pos hf]
    simp only []
    rw [c2, c3, c4, c5]
    exact ⟨c1, rfl⟩
  · have hf' : ¬ c.frame % PIPE_INT = 0 := by rw [c1]; exact hf
    rw [if_neg hf', if_neg hf]
    exact ⟨c1, c2⟩

/-- Moving and filtering see only positions: the code's update of a list
and the reference update give the same positions. -/
theorem position_filter_advance (spd bx : ℚ) (arr : List Pipe) :
    ((arr.map (advancePipe spd bx)).filter keepPipe).map Pipe.position =
      ((arr.map (fun p => { p with x := p.x - spd })).filter
        (fun p => !decide (p.x + 64 ≤ -10))).map Pipe.position := by
  induction arr with
  | nil => rfl
  | cons p rest ih =>
    simp only [List.map_cons, List.filter_cons]
    have hk : keepPipe (advancePipe spd bx p) = !decide (p.x - spd + 64 ≤ -10) := by
      by_cases hx : p.x - spd + 64 ≤ -10
      · have : ¬ (p.x - spd + 64 > -10) := not_lt.mpr hx
        simp [keepPipe, advancePipe, PIPE_W, hx, this]
      · have : p.x - spd + 64 > -10 := not_le.mp hx
        simp [keepPipe, advancePipe, PIPE_W, hx, this]
    rw [hk]
    by_cases hx : p.x - spd + 64 ≤ -10
    · simp only [hx, decide_True, Bool.not_true]
      exact ih
    · simp only [hx, decide_False, Bool.not_false, if_true, List.map_cons, ih]
      rfl

/-- C15: on a tick that starts in playing and on which no hit is processed
(no life is lost), the pipe positions after the tick are those of the
reference stream step `streamStep` applied to the previous list: one new
pipe appended at `x = W` exactly when the frame counter is a multiple of 90,
every pipe moved left by `3.2 * speedMult`, exactly the pipes with
`x + 64 <= -10` removed, in the same order; and the frame counter grows by
one. -/
theorem pipes_follow_streamStep (g : Game) (rnd osc : ℚ) (hs : g.state = Mode.playing)
    (hnohit : (loop g rnd osc).lives = g.lives) :
    (loop g rnd osc).pipes.map Pipe.position =
      (streamStep g.W (BASE_SPD * g.speedMult) g.frame
        (spawnMargin g.H + rnd * (spawnMaxT g.H g.pipeGap - spawnMargin g.H))
        g.pipes).map Pipe.position ∧
    (loop g rnd osc).frame = g.frame + 1 ∧
    BASE_SPD * g.speedMult = (32 / 10) * g.speedMult := by
  have hloop : loop g rnd osc = retire (loopBeforeRetire g rnd) := by
    simp [loop, hs]
  rw [hloop] at hnohit ⊢
  have hfl : (forEachPipe (BASE_SPD * g.speedMult) (loopBeforeForEach g rnd)
      (loopBeforeForEach g rnd).pipes).1.lives = g.lives := hnohit
  have h1 := forEachPipe_lives_le (BASE_SPD * g.speedMult) (loopBeforeForEach g rnd).pipes
    (loopBeforeForEach g rnd)
  have h2 := loopBeforeForEach_lives_le g rnd
  have e1 : (loopBeforeForEach g rnd).lives = g.lives := by omega
  obtain ⟨a1, a2⟩ := loopBeforeForEach_of_lives g rnd e1
  obtain ⟨b1, b2⟩ := forEachPipe_of_lives (BASE_SPD * g.speedMult) (loopBeforeForEach g rnd).pipes
    (loopBeforeForEach g rnd) (by rw [hfl, e1])
  refine ⟨?_, ?_, rfl⟩
  · show ((loopBeforeRetire g rnd).pipes.filter keepPipe).map Pipe.position = _
    rw [loopBeforeRetire_pipes, b1]
    simp only [Bool.false_eq_true, if_false]
    rw [position_filter_advance, a2]
    unfold streamStep PIPE_INT
    rfl
  · show (forEachPipe (BASE_SPD * g.speedMult) (loopBeforeForEach g rnd)
      (loopBeforeForEach g rnd).pipes).1.frame + 1 = g.frame + 1
    rw [b2, a1]

/-- C15 at a concrete input: one tick of `winWithFollowers`, on which no
life is lost. -/
theorem pipes_follow_streamStep_witness :
    (loop winWithFollowers 0 0).pipes.map Pipe.position =
      (streamStep winWithFollowers.W (BASE_SPD * winWithFollowers.speedMult)
        winWithFollowers.frame
        (spawnMargin winWithFollowers.H +
          0 * (spawnMaxT winWithFollowers.H winWithFollowers.pipeGap -
            spawnMargin winWithFollowers.H))
        winWithFollowers.pipes).map Pipe.position ∧
    (loop winWithFollowers 0 0).frame = winWithFollowers.frame + 1 :=
  ⟨(pipes_follow_streamStep winWithFollowers 0 0 rfl (by rw [loop_winWithFollowers]; rfl)).1,
   (pipes_follow_streamStep winWithFollowers 0 0 rfl (by rw [loop_winWithFollowers]; rfl)).2.1⟩

/-! ## Ceiling and ground -/

/-- The bounds of the bird between ceiling and ground, as a property of the
globals inside a tick on a viewport of height `h0`. -/
theorem handleHit_keeps_bounds (h0 : ℚ) (hH : 154 ≤ h0) (g : Game)
    (h : g.H = h0 ∧ g.bird.h = 32 ∧ 0 ≤ g.bird.y ∧ g.bird.y + 32 ≤ h0 - 60) :
    (handleHit g).H = h0 ∧ (handleHit g).bird.h = 32 ∧ 0 ≤ (handleHit g).bird.y ∧
      (handleHit g).bird.y + 32 ≤ h0 - 60 := by
  obtain ⟨h1, h2, h3, h4⟩ := h
  rcases handleHit_cases g with he | ⟨-, -, -, he⟩ | ⟨-, -, -, he⟩
  · rw [he]
    exact ⟨h1, h2, h3, h4⟩
  · rw [he]
    exact ⟨h1, h2, h3, h4⟩
  · rw [he]
    refine ⟨h1, h2, ?_, ?_⟩
    · show 0 ≤ g.H * (4 / 10)
      rw [h1]
      linarith
    · show g.H * (4 / 10) + 32 ≤ h0 - 60
      rw [h1]
      linarith

theorem scorePass_keeps_bounds (h0 : ℚ) (g : Game)
    (h : g.H = h0 ∧ g.bird.h = 32 ∧ 0 ≤ g.bird.y ∧ g.bird.y + 32 ≤ h0 - 60) :
    (scorePass g).H = h0 ∧ (scorePass g).bird.h = 32 ∧ 0 ≤ (scorePass g).bird.y ∧
      (scorePass g).bird.y + 32 ≤ h0 - 60 := by
  unfold scorePass
  simp only []
  split_ifs <;> exact h

/-- After integration, ground check, ceiling check and spawn the bird lies
between ceiling and ground. -/
theorem loopBeforeForEach_bounds (g : Game) (rnd : ℚ) (hH : 154 ≤ g.H) (hh : g.bird.h = 32) :
    (loopBeforeForEach g rnd).H = g.H ∧ (loopBeforeForEach g rnd).bird.h = 32 ∧
    0 ≤ (loopBeforeForEach g rnd).bird.y ∧ (loopBeforeForEach g rnd).bird.y + 32 ≤ g.H - 60 := by
  have hb : ∃ b : Game, groundCheck (integrate g (BASE_SPD * g.speedMult)) = b ∧
      b.H = g.H ∧ b.bird.h = 32 ∧ b.bird.y + 32 ≤ g.H - 60 := by
    refine ⟨_, rfl, ?_⟩
    unfold groundCheck
    split_ifs with hc
    · have hk := handleHit_keeps_bounds g.H hH
        { integrate g (BASE_SPD * g.speedMult) with
          bird := { (integrate g (BASE_SPD * g.speedMult)).bird with
            y := (integrate g (BASE_SPD * g.speedMult)).H - 60 -
              (integrate g (BASE_SPD * g.speedMult)).bird.h } }
        ⟨rfl, hh, by
          show 0 ≤ g.H - 60 - g.bird.h
          rw [hh]
          linarith, by
          show g.H - 60 - g.bird.h + 32 ≤ g.H - 60
          rw [hh]
          linarith⟩
      exact ⟨hk.1, hk.2.1, hk.2.2.2⟩
    · have hc' : ¬ ((integrate g (BASE_SPD * g.speedMult)).bird.y + g.bird.h ≥ g.H - 60) := hc
      rw [hh] at hc'
      exact ⟨rfl, hh, le_of_lt (not_le.mp hc')⟩
  obtain ⟨b, hb, b1, b2, b3⟩ := hb
  have hc : ∃ c : Game, ceilingCheck b = c ∧
      c.H = g.H ∧ c.bird.h = 32 ∧ 0 ≤ c.bird.y ∧ c.bird.y + 32 ≤ g.H - 60 := by
    refine ⟨_, rfl, ?_⟩
    unfold ceilingCheck
    split_ifs with hc
    · refine ⟨b1, b2, le_refl _, ?_⟩
      show (0 : ℚ) + 32 ≤ g.H - 60
      linarith
    · exact ⟨b1, b2, le_of_lt (not_le.mp hc), b3⟩
  obtain ⟨c, hc, c1, c2, c3, c4⟩ := hc
  unfold loopBeforeForEach
  rw [hb, hc]
  unfold spawn
  split_ifs <;> exact ⟨c1, c2, c3, c4⟩

/-- With ceiling contact and no ground contact the stages before `forEach`
leave the bird at `y = 0` with velocity 0 and all lives. -/
theorem loopBeforeForEach_ceiling (g : Game) (rnd : ℚ)
    (hground : ¬ groundContact g) (hceil : ceilingContact g) :
    (loopBeforeForEach g rnd).bird.y = 0 ∧
    (loopBeforeForEach g rnd).bird.vy = 0 ∧
    (loopBeforeForEach g rnd).bird.x = g.bird.x ∧
    (loopBeforeForEach g rnd).bird.w = g.bird.w ∧
    (loopBeforeForEach g rnd).bird.h = g.bird.h ∧
    (loopBeforeForEach g rnd).pipeGap = g.pipeGap ∧
    (loopBeforeForEach g rnd).godMode = g.godMode ∧
    (loopBeforeForEach g rnd).hitCooldown = g.hitCooldown ∧
    (loopBeforeForEach g rnd).lives = g.lives := by
  unfold groundContact at hground
  unfold ceilingContact at hceil
  have h1 : groundCheck (integrate g (BASE_SPD * g.speedMult)) = integrate g (BASE_SPD * g.speedMult) := by
    unfold groundCheck
    rw [if_neg]
    exact hground
  have hc' : (integrate g (BASE_SPD * g.speedMult)).bird.y ≤ 0 := hceil
  unfold loopBeforeForEach
  rw [h1]
  unfold ceilingCheck
  rw [if_pos hc']
  unfold spawn
  split_ifs <;> exact ⟨rfl, rfl, rfl, rfl, rfl, rfl, rfl, rfl, rfl⟩

/-- The collision test reads the bird's box only. -/
theorem checkCollision_congr (b b' : Bird) (gap : ℚ) (p : Pipe)
    (hx : b'.x = b.x) (hy : b'.y = b.y) (hw : b'.w = b.w) (hh : b'.h = b.h) :
    checkCollision b' gap p = checkCollision b gap p := by
  unfold checkCollision
  simp only [hx, hy, hw, hh]

/-- When hits are ignored (god mode or cooldown) `forEach` takes no life. -/
theorem forEachPipe_lives_of_ignored (spd : ℚ) (arr : List Pipe) (g : Game)
    (h : g.godMode = true ∨ g.hitCooldown = true) :
    (forEachPipe spd g arr).1.lives = g.lives := by
  have key := forEachPipe_preserves
    (fun a => (a.godMode = true ∨ a.hitCooldown = true) ∧ a.lives = g.lives)
    (by
      intro a ha
      have : handleHit a = a := by
        rcases ha.1 with h | h
        · exact handleHit_of_godMode a h
        · exact handleHit_of_cooldown a h
      rw [this]
      exact ha)
    (by
      intro a ha
      unfold scorePass
      simp only []
      split_ifs <;> exact ha)
    spd arr g ⟨h, rfl⟩
  exact key.2

/-- When no visited pipe collides with the bird, `forEach` takes no life. -/
theorem forEachPipe_lives_of_no_collision (spd : ℚ) (arr : List Pipe) (g : Game)
    (h : ∀ p ∈ arr, checkCollision g.bird g.pipeGap { p with x := p.x - spd } = false) :
    (forEachPipe spd g arr).1.lives = g.lives := by
  induction arr generalizing g with
  | nil => rfl
  | cons p rest ih =>
    simp only [forEachPipe]
    have hp := h p (List.mem_cons_self p rest)
    have hbody : (pipeBody spd g p).1 =
        if passesNow spd g.bird.x p = true then scorePass g else g := by
      rw [pipeBody_fst_eq]
      simp [hp]
    have hfacts : (pipeBody spd g p).1.lives = g.lives ∧
        (pipeBody spd g p).1.pipeGap = g.pipeGap ∧
        (pipeBody spd g p).1.bird.x = g.bird.x ∧ (pipeBody spd g p).1.bird.y = g.bird.y ∧
        (pipeBody spd g p).1.bird.w = g.bird.w ∧ (pipeBody spd g p).1.bird.h = g.bird.h := by
      rw [hbody]
      unfold scorePass
      simp only []
      split_ifs <;> exact ⟨rfl, rfl, rfl, rfl, rfl, rfl⟩
    obtain ⟨f1, f2, f3, f4, f5, f6⟩ := hfacts
    rw [ih (pipeBody spd g p).1 ?_, f1]
    intro q hq
    rw [f2, checkCollision_congr g.bird (pipeBody spd g p).1.bird g.pipeGap _ f3 f4 f5 f6]
    exact h q (List.mem_cons_of_mem p hq)

/-- C11: on every viewport height `H >= 154`, for every playing state with
the bird's height 32 (any position and velocity, god mode on or off), after
the tick the bird lies between ceiling and ground, `0 <= y` and
`y + 32 <= H - 60`. When moreover the tick has no ground contact, the
integrated position is `<= 0`, and no hit occurs (no visited pipe collides
with the clamped bird, or hits are ignored by god mode or the cooldown), the
tick leaves `y = 0` and the velocity 0 and removes no life. -/
theorem bird_between_ceiling_and_ground (g : Game) (rnd osc : ℚ)
    (hs : g.state = Mode.playing) (hH : 154 ≤ g.H) (hh : g.bird.h = 32) :
    (0 ≤ (loop g rnd osc).bird.y ∧
      (loop g rnd osc).bird.y + (loop g rnd osc).bird.h ≤ (loop g rnd osc).H - 60 ∧
      (loop g rnd osc).bird.h = 32 ∧ (loop g rnd osc).H = g.H) ∧
    (¬ groundContact g → ceilingContact g →
      (g.godMode = true ∨ g.hitCooldown = true ∨
        ∀ p ∈ (loopBeforeForEach g rnd).pipes,
          checkCollision { g.bird with y := 0 } g.pipeGap
            { p with x := p.x - BASE_SPD * g.speedMult } = false) →
      (loop g rnd osc).bird.y = 0 ∧ (loop g rnd osc).bird.vy = 0 ∧
      (loop g rnd osc).lives = g.lives) := by
  have hloop : loop g rnd osc = retire (loopBeforeRetire g rnd) := by
    simp [loop, hs]
  rw [hloop]
  constructor
  · have h1 := loopBeforeForEach_bounds g rnd hH hh
    have key := forEachPipe_preserves
      (fun a => a.H = g.H ∧ a.bird.h = 32 ∧ 0 ≤ a.bird.y ∧ a.bird.y + 32 ≤ g.H - 60)
      (handleHit_keeps_bounds g.H hH) (scorePass_keeps_bounds g.H)
      (BASE_SPD * g.speedMult) (loopBeforeForEach g rnd).pipes (loopBeforeForEach g rnd) h1
    obtain ⟨k1, k2, k3, k4⟩ := key
    refine ⟨k3, ?_, k2, k1⟩
    show (forEachPipe (BASE_SPD * g.speedMult) (loopBeforeForEach g rnd)
      (loopBeforeForEach g rnd).pipes).1.bird.y +
      (forEachPipe (BASE_SPD * g.speedMult) (loopBeforeForEach g rnd)
        (loopBeforeForEach g rnd).pipes).1.bird.h ≤
      (forEachPipe (BASE_SPD * g.speedMult) (loopBeforeForEach g rnd)
        (loopBeforeForEach g rnd).pipes).1.H - 60
    rw [k2, k1]
    exact k4
  · intro hground hceil hno
    obtain ⟨c1, c2, c3, c4, c5, c6, c7, c8, c9⟩ := loopBeforeForEach_ceiling g rnd hground hceil
    have hl : (forEachPipe (BASE_SPD * g.speedMult) (loopBeforeForEach g rnd)
        (loopBeforeForEach g rnd).pipes).1.lives = (loopBeforeForEach g rnd).lives := by
      rcases hno with hgm | hcd | hnc
      · exact forEachPipe_lives_of_ignored _ _ _ (Or.inl (c7.trans hgm))
      · exact forEachPipe_lives_of_ignored _ _ _ (Or.inr (c8.trans hcd))
      · apply forEachPipe_lives_of_no_collision
        intro p hp
        rw [c6, checkCollision_congr { g.bird with y := 0 } (loopBeforeForEach g rnd).bird
          g.pipeGap _ c3 c1 c4 c5]
        exact hnc p hp
    obtain ⟨e1, e2⟩ := forEachPipe_no_life_lost _ _ _ hl
    refine ⟨?_, ?_, ?_⟩
    · show (forEachPipe (BASE_SPD * g.speedMult) (loopBeforeForEach g rnd)
        (loopBeforeForEach g rnd).pipes).1.bird.y = 0
      rw [e1, c1]
    · show (forEachPipe (BASE_SPD * g.speedMult) (loopBeforeForEach g rnd)
        (loopBeforeForEach g rnd).pipes).1.bird.vy = 0
      rw [e2, c2]
    · show (forEachPipe (BASE_SPD * g.speedMult) (loopBeforeForEach g rnd)
        (loopBeforeForEach g rnd).pipes).1.lives = g.lives
      rw [hl, c9]

/-- C11 at a concrete input: `nearCeiling` flies into the ceiling, is
clamped to `y = 0` with velocity 0 and keeps its 3 lives. -/
theorem bird_between_ceiling_and_ground_witness :
    (loop nearCeiling 0 0).bird.y = 0 ∧ (loop nearCeiling 0 0).bird.vy = 0 ∧
    (loop nearCeiling 0 0).lives = 3 :=
  (bird_between_ceiling_and_ground nearCeiling 0 0 rfl (by norm_num [nearCeiling]) rfl).2
    (by norm_num [groundContact, nearCeiling, GRAVITY])
    (by norm_num [ceilingContact, nearCeiling, GRAVITY])
    (Or.inr (Or.inr (by
      have hl := (loopBeforeForEach_ceiling nearCeiling 0
        (by norm_num [groundContact, nearCeiling, GRAVITY])
        (by norm_num [ceilingContact, nearCeiling, GRAVITY])).2.2.2.2.2.2.2.2
      have hp : (loopBeforeForEach nearCeiling 0).pipes = [] := by
        rw [(loopBeforeForEach_of_lives nearCeiling 0 hl).2]
        rfl
      rw [hp]
      intro p hp'
      cases hp')))

/-! ## Double rounding -/

theorem roundHalfEven_intCast (m : ℤ) : roundHalfEven (m : ℚ) = m := by
  unfold roundHalfEven
  simp

/-- The rounded value is the floor or the floor plus one. -/
theorem roundHalfEven_cases (x : ℚ) :
    (roundHalfEven x = ⌊x⌋ ∧ x - ⌊x⌋ ≤ 1 / 2) ∨ (roundHalfEven x = ⌊x⌋ + 1 ∧ 1 / 2 ≤ x - ⌊x⌋) := by
  unfold roundHalfEven
  split_ifs with h1 h2 h3
  · exact Or.inl ⟨rfl, le_of_lt h1⟩
  · exact Or.inr ⟨rfl, le_of_lt h2⟩
  · exact Or.inl ⟨rfl, not_lt.mp h2⟩
  · exact Or.inr ⟨rfl, not_lt.mp h1⟩

theorem roundHalfEven_mono {x y : ℚ} (h : x ≤ y) : roundHalfEven x ≤ roundHalfEven y := by
  have hf : ⌊x⌋ ≤ ⌊y⌋ := Int.floor_mono h
  rcases lt_or_eq_of_le hf with hlt | heq
  · have h1 : roundHalfEven x ≤ ⌊x⌋ + 1 := by
      rcases roundHalfEven_cases x with ⟨e, -⟩ | ⟨e, -⟩ <;> omega
    have h2 : ⌊y⌋ ≤ roundHalfEven y := by
      rcases roundHalfEven_cases y with ⟨e, -⟩ | ⟨e, -⟩ <;> omega
    omega
  · have hxy : x - ⌊x⌋ ≤ y - ⌊y⌋ := by
      rw [heq]
      linarith
    unfold roundHalfEven
    rw [heq]
    rw [heq] at hxy
    split_ifs <;> first | omega | (exfalso; linarith)

/-- A rational strictly within one half of an integer rounds to it. -/
theorem roundHalfEven_eq_of_near (x : ℚ) (z : ℤ) (h1 : (z : ℚ) - 1 / 2 < x)
    (h2 : x < (z : ℚ) + 1 / 2) : roundHalfEven x = z := by
  have hz1 : roundHalfEven ((z : ℚ)) = z := roundHalfEven_intCast z
  rcases le_or_lt (z : ℚ) x with hle | hlt
  · have hf : ⌊x⌋ = z := by
      rw [Int.floor_eq_iff]
      exact ⟨hle, by linarith⟩
    unfold roundHalfEven
    rw [hf]
    rw [if_pos (by linarith)]
  · have hf : ⌊x⌋ = z - 1 := by
      rw [Int.floor_eq_iff]
      push_cast
      exact ⟨by linarith, by linarith⟩
    unfold roundHalfEven
    rw [hf]
    push_cast
    rw [if_neg (by linarith), if_pos (by linarith)]
    ring

theorem two_zpow_pos (e : ℤ) : (0 : ℚ) < 2 ^ e := zpow_pos (by norm_num) e

theorem roundDouble_zero : roundDouble 0 = 0 := by
  unfold roundDouble
  rw [zero_div]
  have : roundHalfEven 0 = 0 := by
    have := roundHalfEven_intCast 0
    simpa using this
  rw [this]
  simp

theorem roundDouble_nonneg {x : ℚ} (h : 0 ≤ x) : 0 ≤ roundDouble x := by
  unfold roundDouble
  have h1 : (0 : ℚ) ≤ x / 2 ^ ulpExponent x := div_nonneg h (le_of_lt (two_zpow_pos _))
  have h2 : roundHalfEven 0 ≤ roundHalfEven (x / 2 ^ ulpExponent x) := roundHalfEven_mono h1
  have h3 : roundHalfEven 0 = 0 := by
    have := roundHalfEven_intCast 0
    simpa using this
  rw [h3] at h2
  exact mul_nonneg (by exact_mod_cast h2) (le_of_lt (two_zpow_pos _))

theorem two_zpow_eq_intCast (k : ℤ) (hk : 0 ≤ k) : (2 : ℚ) ^ k = ((2 ^ k.toNat : ℤ) : ℚ) := by
  conv_lhs => rw [← Int.toNat_of_nonneg hk]
  rw [zpow_natCast]
  push_cast
  rfl

theorem ulpExponent_mono {x y : ℚ} (hx : 0 < x) (h : x ≤ y) : ulpExponent x ≤ ulpExponent y := by
  unfold ulpExponent
  rw [abs_of_pos hx, abs_of_pos (lt_of_lt_of_le hx h)]
  exact max_le_max (sub_le_sub_right (Int.log_mono_right hx h) 52) (le_refl _)

/-- Rounding to a double is monotone on the positive rationals. -/
theorem roundDouble_mono {x y : ℚ} (hx : 0 < x) (h : x ≤ y) : roundDouble x ≤ roundDouble y := by
  have hy : 0 < y := lt_of_lt_of_le hx h
  rcases eq_or_lt_of_le (ulpExponent_mono hx h) with he | he
  · unfold roundDouble
    rw [he]
    apply mul_le_mul_of_nonneg_right _ (le_of_lt (two_zpow_pos _))
    have : x / 2 ^ ulpExponent y ≤ y / 2 ^ ulpExponent y :=
      div_le_div_of_nonneg_right h (le_of_lt (two_zpow_pos _))
    exact_mod_cast roundHalfEven_mono this
  · have hex : Int.log 2 x - 52 ≤ ulpExponent x := by
      unfold ulpExponent
      rw [abs_of_pos hx]
      exact le_max_left _ _
    have hex' : -1074 ≤ ulpExponent x := by
      unfold ulpExponent
      exact le_max_right _ _
    have hey : ulpExponent y = Int.log 2 y - 52 := by
      have h1 : ulpExponent y = max (Int.log 2 y - 52) (-1074) := by
        unfold ulpExponent
        rw [abs_of_pos hy]
      rw [h1] at he ⊢
      rcases le_total (Int.log 2 y - 52) (-1074) with hc | hc
      · rw [max_eq_right hc] at he
        omega
      · exact max_eq_left hc
    have hlog : Int.log 2 x + 1 ≤ Int.log 2 y := by omega
    have hx2 : x ≤ (2 : ℚ) ^ Int.log 2 y := by
      have h1 : x < ((2 : ℕ) : ℚ) ^ (Int.log 2 x + 1) := Int.lt_zpow_succ_log_self (by norm_num) x
      have h2 : (2 : ℚ) ^ (Int.log 2 x + 1) ≤ (2 : ℚ) ^ Int.log 2 y :=
        zpow_le_zpow_right₀ (by norm_num) hlog
      have h3 : x < (2 : ℚ) ^ (Int.log 2 x + 1) := by exact_mod_cast h1
      linarith
    have hy2 : (2 : ℚ) ^ Int.log 2 y ≤ y := by
      have h1 : ((2 : ℕ) : ℚ) ^ Int.log 2 y ≤ y := Int.zpow_log_le_self (by norm_num) hy
      exact_mod_cast h1
    have hA : roundDouble x ≤ (2 : ℚ) ^ Int.log 2 y := by
      have hk : 0 ≤ Int.log 2 y - ulpExponent x := by omega
      have h1 : x / 2 ^ ulpExponent x ≤ (2 : ℚ) ^ (Int.log 2 y - ulpExponent x) := by
        rw [zpow_sub₀ (by norm_num : (2 : ℚ) ≠ 0)]
        exact div_le_div_of_nonneg_right hx2 (le_of_lt (two_zpow_pos _))
      rw [two_zpow_eq_intCast _ hk] at h1
      have h2 := roundHalfEven_mono h1
      rw [roundHalfEven_intCast] at h2
      have h3 : (roundHalfEven (x / 2 ^ ulpExponent x) : ℚ) ≤
          (2 : ℚ) ^ (Int.log 2 y - ulpExponent x) := by
        rw [two_zpow_eq_intCast _ hk]
        exact_mod_cast h2
      have h4 := mul_le_mul_of_nonneg_right h3 (le_of_lt (two_zpow_pos (ulpExponent x)))
      rw [← zpow_add₀ (by norm_num : (2 : ℚ) ≠ 0), sub_add_cancel] at h4
      exact h4
    have hB : (2 : ℚ) ^ Int.log 2 y ≤ roundDouble y := by
      have h1 : (2 : ℚ) ^ (Int.log 2 y - ulpExponent y) ≤ y / 2 ^ ulpExponent y := by
        rw [zpow_sub₀ (by norm_num : (2 : ℚ) ≠ 0)]
        exact div_le_div_of_nonneg_right hy2 (le_of_lt (two_zpow_pos _))
      have hk : 0 ≤ Int.log 2 y - ulpExponent y := by omega
      rw [two_zpow_eq_intCast _ hk] at h1
      have h2 := roundHalfEven_mono h1
      rw [roundHalfEven_intCast] at h2
      have h3 : (2 : ℚ) ^ (Int.log 2 y - ulpExponent y) ≤
          (roundHalfEven (y / 2 ^ ulpExponent y) : ℚ) := by
        rw [two_zpow_eq_intCast _ hk]
        exact_mod_cast h2
      have h4 := mul_le_mul_of_nonneg_right h3 (le_of_lt (two_zpow_pos (ulpExponent y)))
      rw [← zpow_add₀ (by norm_num : (2 : ℚ) ≠ 0), sub_add_cancel] at h4
      exact h4
    exact le_trans hA hB

/-- Rounding to a double is monotone on the non-negative rationals. -/
theorem roundDouble_mono_nonneg {x y : ℚ} (hx : 0 ≤ x) (h : x ≤ y) :
    roundDouble x ≤ roundDouble y := by
  rcases eq_or_lt_of_le hx with h0 | hpos
  · rw [← h0, roundDouble_zero]
    exact roundDouble_nonneg (le_trans hx h)
  · exact roundDouble_mono hpos h

/-- Integers below `2 ^ 53` in absolute value are doubles. -/
theorem roundDouble_intCast (n : ℤ) (hn : |n| < 2 ^ 53) : roundDouble (n : ℚ) = n := by
  rcases eq_or_ne n 0 with h0 | h0
  · rw [h0]
    simpa using roundDouble_zero
  · have hpos : (0 : ℚ) < |(n : ℚ)| := abs_pos.mpr (by exact_mod_cast h0)
    have h1 : (1 : ℚ) ≤ |(n : ℚ)| := by
      have : (1 : ℤ) ≤ |n| := Int.one_le_abs h0
      exact_mod_cast this
    have h2 : |(n : ℚ)| < 2 ^ (53 : ℤ) := by
      have : ((|n| : ℤ) : ℚ) < ((2 ^ 53 : ℤ) : ℚ) := by exact_mod_cast hn
      rw [Int.cast_abs] at this
      norm_num at this ⊢
      exact this
    have hl0 : 0 ≤ Int.log 2 |(n : ℚ)| := by
      rw [← Int.zpow_le_iff_le_log (by norm_num) hpos]
      simpa using h1
    have hl1 : Int.log 2 |(n : ℚ)| < 53 := by
      rw [← Int.lt_zpow_iff_log_lt (by norm_num) hpos]
      exact_mod_cast h2
    have he : ulpExponent (n : ℚ) = Int.log 2 |(n : ℚ)| - 52 := by
      unfold ulpExponent
      apply max_eq_left
      omega
    unfold roundDouble
    rw [he]
    have hk : 0 ≤ 52 - Int.log 2 |(n : ℚ)| := by omega
    have hd : (n : ℚ) / 2 ^ (Int.log 2 |(n : ℚ)| - 52) =
        ((n * 2 ^ (52 - Int.log 2 |(n : ℚ)|).toNat : ℤ) : ℚ) := by
      have : (2 : ℚ) ^ (Int.log 2 |(n : ℚ)| - 52) = ((2 : ℚ) ^ (52 - Int.log 2 |(n : ℚ)|))⁻¹ := by
        rw [← zpow_neg]
        congr 1
        ring
      rw [this, div_inv_eq_mul, two_zpow_eq_intCast _ hk]
      push_cast
      rfl
    rw [hd, roundHalfEven_intCast]
    push_cast
    have hz : ((2 : ℚ) ^ (52 - Int.log 2 |(n : ℚ)|).toNat) = (2 : ℚ) ^ (52 - Int.log 2 |(n : ℚ)|) := by
      rw [two_zpow_eq_intCast _ hk]
      push_cast
      rfl
    rw [hz, mul_assoc, ← zpow_add₀ (by norm_num : (2 : ℚ) ≠ 0)]
    have : 52 - Int.log 2 |(n : ℚ)| + (Int.log 2 |(n : ℚ)| - 52) = 0 := by ring
    rw [this, zpow_zero, mul_one]

/-- The binade of a rational read off from two powers of two around it. -/
theorem log_two_eq_of_bounds (x : ℚ) (k : ℤ) (h1 : (2 : ℚ) ^ k ≤ |x|)
    (h2 : |x| < (2 : ℚ) ^ (k + 1)) : Int.log 2 |x| = k := by
  have hpos : (0 : ℚ) < |x| := lt_of_lt_of_le (two_zpow_pos k) h1
  have a : k ≤ Int.log 2 |x| := by
    rw [← Int.zpow_le_iff_le_log (by norm_num) hpos]
    exact_mod_cast h1
  have b : Int.log 2 |x| < k + 1 := by
    rw [← Int.lt_zpow_iff_log_lt (by norm_num) hpos]
    exact_mod_cast h2
  omega

/-- The double nearest to `x`, from its binade `k` and an integer `z` within
one half of `x / 2 ^ (k - 52)`. -/
theorem roundDouble_eq_of_near (x : ℚ) (k z : ℤ) (h1 : (2 : ℚ) ^ k ≤ |x|)
    (h2 : |x| < (2 : ℚ) ^ (k + 1)) (hk : -1074 ≤ k - 52)
    (hz1 : (z : ℚ) - 1 / 2 < x / 2 ^ (k - 52)) (hz2 : x / 2 ^ (k - 52) < (z : ℚ) + 1 / 2) :
    roundDouble x = (z : ℚ) * 2 ^ (k - 52) := by
  have he : ulpExponent x = k - 52 := by
    unfold ulpExponent
    rw [log_two_eq_of_bounds x k h1 h2]
    exact max_eq_left hk
  unfold roundDouble
  rw [he, roundHalfEven_eq_of_near _ z hz1 hz2]

/-- The margin is 50 or 80. -/
theorem spawnMargin_cases (h : ℚ) : spawnMargin h = 50 ∨ spawnMargin h = 80 := by
  unfold spawnMargin
  split_ifs
  · exact Or.inl rfl
  · exact Or.inr rfl

/-- On an integer viewport height and with an integer gap no rounding
happens in `maxT`: the double value is the exact one, an integer. -/
theorem spawnMaxTDouble_exact (h gap : ℤ) (hh : |h| ≤ 2 ^ 50) (hg : |gap| ≤ 2 ^ 50) :
    ∃ m M : ℤ, spawnMargin (h : ℚ) = (m : ℚ) ∧ (m = 50 ∨ m = 80) ∧
      M = max (m + 20) (h - m - gap - m) ∧
      spawnMaxTDouble (h : ℚ) (gap : ℚ) = (M : ℚ) ∧
      spawnMaxT (h : ℚ) (gap : ℚ) = (M : ℚ) := by
  obtain ⟨hh1, hh2⟩ := abs_le.mp hh
  obtain ⟨hg1, hg2⟩ := abs_le.mp hg
  have hm : ∃ m : ℤ, spawnMargin (h : ℚ) = (m : ℚ) ∧ (m = 50 ∨ m = 80) := by
    rcases spawnMargin_cases (h : ℚ) with e | e
    · exact ⟨50, by rw [e]; norm_num, Or.inl rfl⟩
    · exact ⟨80, by rw [e]; norm_num, Or.inr rfl⟩
  obtain ⟨m, hm, hm'⟩ := hm
  refine ⟨m, max (m + 20) (h - m - gap - m), hm, hm', rfl, ?_, ?_⟩
  · unfold spawnMaxTDouble
    rw [hm]
    have e1 : ((m : ℚ) + 20) = ((m + 20 : ℤ) : ℚ) := by push_cast; ring
    have e2 : ((h : ℚ) - (m : ℚ)) = ((h - m : ℤ) : ℚ) := by push_cast; ring
    rw [e1, e2, roundDouble_intCast (m + 20) (abs_lt.mpr ⟨by omega, by omega⟩),
      roundDouble_intCast (h - m) (abs_lt.mpr ⟨by omega, by omega⟩)]
    have e3 : (((h - m : ℤ) : ℚ) - (gap : ℚ)) = ((h - m - gap : ℤ) : ℚ) := by push_cast; ring
    rw [e3, roundDouble_intCast (h - m - gap) (abs_lt.mpr ⟨by omega, by omega⟩)]
    have e4 : (((h - m - gap : ℤ) : ℚ) - (m : ℚ)) = ((h - m - gap - m : ℤ) : ℚ) := by
      push_cast; ring
    rw [e4, roundDouble_intCast (h - m - gap - m) (abs_lt.mpr ⟨by omega, by omega⟩)]
    push_cast
    rfl
  · unfold spawnMaxT
    rw [hm]
    push_cast
    rfl

/-- C13, amended: for every integer viewport height (and integer gap, both
within `2 ^ 50`) the band the spawn draws from is not empty: its upper bound
`maxT = max(margin + 20, H - 2*margin - gap)`, which JavaScript computes
without rounding, exceeds its lower bound `margin` by at least 20; and for
every draw `0 <= rnd < 1` the offset `topH` as JavaScript computes it, the
expression of `spawn` with its product and its sum rounded to doubles,
satisfies `margin <= topH <= maxT`. -/
theorem spawn_band_never_empty_in_doubles (h gap : ℤ) (rnd : ℚ)
    (hh : |h| ≤ 2 ^ 50) (hg : |gap| ≤ 2 ^ 50) (h0 : 0 ≤ rnd) (h1 : rnd < 1) :
    spawnMaxTDouble (h : ℚ) (gap : ℚ) =
      max (spawnMargin (h : ℚ) + 20) ((h : ℚ) - 2 * spawnMargin (h : ℚ) - (gap : ℚ)) ∧
    spawnMaxTDouble (h : ℚ) (gap : ℚ) = spawnMaxT (h : ℚ) (gap : ℚ) ∧
    spawnMargin (h : ℚ) + 20 ≤ spawnMaxTDouble (h : ℚ) (gap : ℚ) ∧
    spawnTopHDouble (h : ℚ) (gap : ℚ) rnd =
      roundDouble (spawnMargin (h : ℚ) +
        roundDouble (rnd * (spawnMaxT (h : ℚ) (gap : ℚ) - spawnMargin (h : ℚ)))) ∧
    spawnMargin (h : ℚ) ≤ spawnTopHDouble (h : ℚ) (gap : ℚ) rnd ∧
    spawnTopHDouble (h : ℚ) (gap : ℚ) rnd ≤ spawnMaxTDouble (h : ℚ) (gap : ℚ) := by
  obtain ⟨hh1, hh2⟩ := abs_le.mp hh
  obtain ⟨hg1, hg2⟩ := abs_le.mp hg
  obtain ⟨m, M, hm, hm', hM, hMd, hMe⟩ := spawnMaxTDouble_exact h gap hh hg
  have hM20 : m + 20 ≤ M := by
    rw [hM]
    exact le_max_left _ _
  have hMup : M ≤ 2 ^ 52 := by
    rw [hM]
    apply max_le <;> omega
  have hmpos : (0 : ℚ) < (m : ℚ) := by
    rcases hm' with e | e <;> rw [e] <;> norm_num
  have hd : roundDouble ((M : ℚ) - (m : ℚ)) = ((M - m : ℤ) : ℚ) := by
    have e : ((M : ℚ) - (m : ℚ)) = ((M - m : ℤ) : ℚ) := by push_cast; ring
    rw [e, roundDouble_intCast (M - m) (abs_lt.mpr ⟨by omega, by omega⟩)]
  have hdpos : (0 : ℚ) ≤ ((M - m : ℤ) : ℚ) := by
    have : (0 : ℤ) ≤ M - m := by omega
    exact_mod_cast this
  have hprod0 : 0 ≤ roundDouble (rnd * ((M - m : ℤ) : ℚ)) :=
    roundDouble_nonneg (mul_nonneg h0 hdpos)
  have hprod1 : roundDouble (rnd * ((M - m : ℤ) : ℚ)) ≤ ((M - m : ℤ) : ℚ) := by
    have h2 : rnd * ((M - m : ℤ) : ℚ) ≤ ((M - m : ℤ) : ℚ) := by
      have := mul_le_mul_of_nonneg_right (le_of_lt h1) hdpos
      linarith
    have h3 := roundDouble_mono_nonneg (mul_nonneg h0 hdpos) h2
    rw [roundDouble_intCast (M - m) (abs_lt.mpr ⟨by omega, by omega⟩)] at h3
    exact h3
  have htop : spawnTopHDouble (h : ℚ) (gap : ℚ) rnd =
      roundDouble ((m : ℚ) + roundDouble (rnd * ((M - m : ℤ) : ℚ))) := by
    unfold spawnTopHDouble
    rw [hMd, hm, hd]
  refine ⟨?_, hMd.trans hMe.symm, ?_, ?_, ?_, ?_⟩
  · rw [hMd.trans hMe.symm]
    unfold spawnMaxT
    congr 1
    ring
  · rw [hMd, hm]
    exact_mod_cast hM20
  · rw [htop, hMe, hm]
    push_cast
    rfl
  · rw [htop, hm]
    have h2 := roundDouble_mono (x := (m : ℚ))
      (y := (m : ℚ) + roundDouble (rnd * ((M - m : ℤ) : ℚ))) hmpos (by linarith)
    rw [roundDouble_intCast m (abs_lt.mpr ⟨by omega, by omega⟩)] at h2
    exact h2
  · rw [htop, hMd]
    have h2 := roundDouble_mono (x := (m : ℚ) + roundDouble (rnd * ((M - m : ℤ) : ℚ)))
      (y := ((M : ℤ) : ℚ)) (by linarith) (by push_cast at hprod1 ⊢; linarith)
    rw [roundDouble_intCast M (abs_lt.mpr ⟨by omega, by omega⟩)] at h2
    exact h2

/-- C13, amended, at a concrete input: the viewport 300 high with gap 160
and the draw one half. -/
theorem spawn_band_never_empty_in_doubles_witness :
    spawnMargin ((300 : ℤ) : ℚ) ≤ spawnTopHDouble ((300 : ℤ) : ℚ) ((160 : ℤ) : ℚ) (1 / 2) ∧
    spawnTopHDouble ((300 : ℤ) : ℚ) ((160 : ℤ) : ℚ) (1 / 2) ≤
      spawnMaxTDouble ((300 : ℤ) : ℚ) ((160 : ℤ) : ℚ) :=
  (spawn_band_never_empty_in_doubles 300 160 (1 / 2) (by norm_num) (by norm_num)
    (by norm_num) (by norm_num)).2.2.2.2

/-- C13 as stated fails in the arithmetic the program runs in. On a viewport
300 high (margin 50, gap 160, `maxT = 70`) the draw `1 - 2^-52`, a double
in `[0, 1)`, gives the product `20 - 2^-48` and the sum `70 - 2^-48`, which
rounds to the double 70: `topH = maxT`, not `topH < maxT`. -/
theorem spawn_reaches_maxT_in_doubles :
    (0 : ℚ) ≤ 1 - 1 / 2 ^ 52 ∧ ((1 : ℚ) - 1 / 2 ^ 52 < 1) ∧
    roundDouble (1 - 1 / 2 ^ 52) = 1 - 1 / 2 ^ 52 ∧
    spawnMargin 300 = 50 ∧
    spawnMaxTDouble 300 160 = 70 ∧
    roundDouble ((1 - 1 / 2 ^ 52) * 20) = 20 - 1 / 2 ^ 48 ∧
    spawnTopHDouble 300 160 (1 - 1 / 2 ^ 52) = 70 ∧
    ¬ (spawnTopHDouble 300 160 (1 - 1 / 2 ^ 52) < spawnMaxTDouble 300 160) := by
  have hm : spawnMargin 300 = 50 := by norm_num [spawnMargin]
  have hmax : spawnMaxTDouble 300 160 = 70 := by
    unfold spawnMaxTDouble
    rw [hm]
    have a1 : roundDouble ((50 : ℚ) + 20) = 70 := by
      have := roundDouble_intCast 70 (by norm_num)
      norm_num at this ⊢
      exact this
    have a2 : roundDouble ((300 : ℚ) - 50) = 250 := by
      have := roundDouble_intCast 250 (by norm_num)
      norm_num at this ⊢
      exact this
    have a3 : roundDouble ((250 : ℚ) - 160) = 90 := by
      have := roundDouble_intCast 90 (by norm_num)
      norm_num at this ⊢
      exact this
    have a4 : roundDouble ((90 : ℚ) - 50) = 40 := by
      have := roundDouble_intCast 40 (by norm_num)
      norm_num at this ⊢
      exact this
    rw [a1, a2, a3, a4]
    norm_num
  have hr : roundDouble (1 - 1 / 2 ^ 52) = 1 - 1 / 2 ^ 52 := by
    rw [roundDouble_eq_of_near (1 - 1 / 2 ^ 52) (-1) (2 ^ 53 - 2)
      (by rw [abs_of_pos (by norm_num)]; norm_num)
      (by rw [abs_of_pos (by norm_num)]; norm_num)
      (by norm_num) (by norm_num) (by norm_num)]
    norm_num
  have hd : roundDouble ((70 : ℚ) - 50) = 20 := by
    have := roundDouble_intCast 20 (by norm_num)
    norm_num at this ⊢
    exact this
  have hp : roundDouble ((1 - 1 / 2 ^ 52) * 20) = 20 - 1 / 2 ^ 48 := by
    rw [roundDouble_eq_of_near ((1 - 1 / 2 ^ 52) * 20) 4 (20 * 2 ^ 48 - 1)
      (by rw [abs_of_pos (by norm_num)]; norm_num)
      (by rw [abs_of_pos (by norm_num)]; norm_num)
      (by norm_num) (by norm_num) (by norm_num)]
    norm_num
  have hs : roundDouble ((50 : ℚ) + (20 - 1 / 2 ^ 48)) = 70 := by
    rw [roundDouble_eq_of_near ((50 : ℚ) + (20 - 1 / 2 ^ 48)) 6 (70 * 2 ^ 46)
      (by rw [abs_of_pos (by norm_num)]; norm_num)
      (by rw [abs_of_pos (by norm_num)]; norm_num)
      (by norm_num) (by norm_num) (by norm_num)]
    norm_num
  have htop : spawnTopHDouble 300 160 (1 - 1 / 2 ^ 52) = 70 := by
    unfold spawnTopHDouble
    rw [hmax, hm, hd, hp, hs]
  refine ⟨by norm_num, by norm_num, hr, hm, hmax, hp, htop, ?_⟩
  rw [htop, hmax]
  exact lt_irrefl _

end FlappyPro
